import Mathlib

/-!
Shallow embedding of `src/lib/cloudwatch-integration.ts` (winston-cloudwatch).

JS strings are modelled as lists of UTF-16 code units (`List Nat`):
`Buffer.byteLength(s, "utf8")` becomes `utf8Len`, `s.substring(0, n)` becomes
`List.take n`, and `s.length` becomes `List.length`.  The AWS SDK client is an
oracle (`AwsClient`) answering each remote call from its per-method call index;
the module-level mutable record `lib` together with the log of remote calls is
threaded explicitly as `CWState`.  Callback invocations are collected in order
as a list of outcomes (`Option JsError`), since the source can invoke the
caller's callback more than once on the truncation path.
-/

/-- `MAX_EVENT_MSG_SIZE_BYTES` from the source. -/
def MAX_EVENT_MSG_SIZE_BYTES : Nat := 256000

/-- `MAX_BATCH_SIZE_BYTES` from the source. -/
def MAX_BATCH_SIZE_BYTES : Nat := 1000000

/-- `BASE_EVENT_SIZE_BYTES` from the source (26 bytes of per-event overhead). -/
def BASE_EVENT_SIZE_BYTES : Nat := 26

/-- UTF-8 byte size of one UTF-16 code unit taken alone (an unpaired
surrogate is encoded as U+FFFD, 3 bytes, matching Node's Buffer). -/
def utf16UnitUtf8Size (u : Nat) : Nat :=
  if u < 128 then 1 else if u < 2048 then 2 else 3

/-- High-surrogate range of UTF-16. -/
def isHighSurrogate (u : Nat) : Bool := 55296 ≤ u && u ≤ 56319

/-- Low-surrogate range of UTF-16. -/
def isLowSurrogate (u : Nat) : Bool := 56320 ≤ u && u ≤ 57343

/-- `Buffer.byteLength(message, "utf8")` on a JS string given as its UTF-16
code units: a surrogate pair costs 4 bytes, everything else costs
`utf16UnitUtf8Size`. -/
def utf8Len : List Nat → Nat
  | [] => 0
  | [u] => utf16UnitUtf8Size u
  | u :: v :: rest =>
    if isHighSurrogate u && isLowSurrogate v then 4 + utf8Len rest
    else utf16UnitUtf8Size u + utf8Len (v :: rest)

/-- `LogEvent` from the source; `message` is the JS string as UTF-16 units. -/
structure LogEvent where
  message : List Nat
  timestamp : Int
deriving Repr, DecidableEq

/-- A JS `Error` as the source observes it: its `name`, its `message`, and the
`logEvent` property attached to the truncation error. -/
structure JsError where
  name : String
  errMessage : String
  logEvent : Option LogEvent := none
deriving Repr, DecidableEq

/-- `PutLogEventsCommandInput` as built by the source.  A `none`
`sequenceToken` models the field being absent from the request. -/
structure Payload where
  logGroupName : String
  logStreamName : String
  logEvents : List (Option LogEvent)
  sequenceToken : Option String := none
deriving Repr, DecidableEq

/-- One element of `describeLogStreams`' response. -/
structure LogStream where
  logStreamName : String
  uploadSequenceToken : Option String := none
deriving Repr, DecidableEq

/-- Parameters of a `describeLogStreams` request; `streamNameFilter` models
the optional `logStreamNamePrefix` field. -/
structure DescribeParams where
  logGroupName : String
  streamNameFilter : Option String := none
deriving Repr, DecidableEq

/-- Response body of `describeLogStreams`. -/
structure DescribeData where
  logStreams : List LogStream
deriving Repr, DecidableEq

/-- `CloudWatchOptions` from the source. -/
structure CWOptions where
  ensureLogGroup : Option Bool := none
deriving Repr, DecidableEq

/-- One remote call made through the AWS client, with its arguments. -/
inductive RemoteCall where
  | putLogEventsCall (payload : Payload)
  | describeLogStreamsCall (params : DescribeParams)
  | createLogGroupCall (name : String)
  | createLogStreamCall (group stream : String)
  | putRetentionPolicyCall (group : String) (days : Int)
deriving Repr, DecidableEq

/-- Whether a remote call is a `putLogEvents` submission. -/
def isPutCall : RemoteCall → Bool
  | RemoteCall.putLogEventsCall _ => true
  | _ => false

/-- Whether a remote call is a `describeLogStreams` request. -/
def isDescribeCall : RemoteCall → Bool
  | RemoteCall.describeLogStreamsCall _ => true
  | _ => false

/-- Whether a remote call is a `createLogGroup` request. -/
def isCreateGroupCall : RemoteCall → Bool
  | RemoteCall.createLogGroupCall _ => true
  | _ => false

/-- Whether a remote call is a `createLogStream` request. -/
def isCreateStreamCall : RemoteCall → Bool
  | RemoteCall.createLogStreamCall _ _ => true
  | _ => false

/-- Whether a remote call is a `putRetentionPolicy` request. -/
def isRetentionCall : RemoteCall → Bool
  | RemoteCall.putRetentionPolicyCall _ _ => true
  | _ => false

/-- Number of `putLogEvents` submissions in a call log. -/
def countPut (l : List RemoteCall) : Nat := (l.filter isPutCall).length

/-- Number of `describeLogStreams` requests in a call log. -/
def countDescribe (l : List RemoteCall) : Nat := (l.filter isDescribeCall).length

/-- Number of `createLogGroup` requests in a call log. -/
def countCreateGroup (l : List RemoteCall) : Nat :=
  (l.filter isCreateGroupCall).length

/-- Number of `createLogStream` requests in a call log. -/
def countCreateStream (l : List RemoteCall) : Nat :=
  (l.filter isCreateStreamCall).length

/-- Number of `putRetentionPolicy` requests in a call log. -/
def countRetention (l : List RemoteCall) : Nat :=
  (l.filter isRetentionCall).length

/-- The AWS SDK client as a deterministic oracle: each method's response is a
function of that method's call index (how many calls of the same method came
before) and its arguments. -/
structure AwsClient where
  putLogEvents : Nat → Payload → Except JsError (Option String)
  describeLogStreams : Nat → DescribeParams → Except JsError DescribeData
  createLogGroup : Nat → String → Except JsError Unit
  createLogStream : Nat → String → String → Except JsError Unit
  putRetentionPolicy : Nat → String → Int → Except JsError Unit

/-- The process-wide mutable state of the module (`lib._postingEvents` as a
set of stream names, `lib._nextToken` as an association list whose value
`none` models an entry explicitly set to JS `null`), plus the ordered log of
remote calls and of `console.error` lines. -/
structure CWState where
  postingEvents : List String
  nextToken : List (String × Option String)
  calls : List RemoteCall
  consoleErrors : List String
deriving Repr, DecidableEq

/-- Membership test for `lib._postingEvents` (truthiness of the record). -/
def postingMem (l : List String) (s : String) : Bool := l.contains s

/-- `lib._postingEvents[streamName] = true`. -/
def postingSet (l : List String) (s : String) : List String :=
  if l.contains s then l else s :: l

/-- `delete lib._postingEvents[streamName]`. -/
def postingDel (l : List String) (s : String) : List String :=
  l.filter (fun x => x ≠ s)

/-- Lookup in `lib._nextToken`: `none` means the key is absent (JS
`undefined`), `some none` means the entry was set to `null`. -/
def assocGet (l : List (String × Option String)) (k : String) :
    Option (Option String) :=
  match l.find? (fun p => p.1 = k) with
  | some p => some p.2
  | none => none

/-- Assignment `lib._nextToken[k] = v` (overwrites an existing entry). -/
def assocSet (l : List (String × Option String)) (k : String)
    (v : Option String) : List (String × Option String) :=
  (k, v) :: l.filter (fun p => p.1 ≠ k)

/-- `delete lib._nextToken[k]`. -/
def assocDel (l : List (String × Option String)) (k : String) :
    List (String × Option String) :=
  l.filter (fun p => p.1 ≠ k)

/-- `previousKeyMapKey` from the source. -/
def previousKeyMapKey (group stream : String) : String :=
  group ++ ":" ++ stream

/-- JS truthiness applied to an optional string (`""`, `null` and
`undefined` are falsy), as in `if (token) ...` and `token || undefined`. -/
def jsOr (t : Option String) : Option String :=
  match t with
  | some s => if s = "" then none else some s
  | none => none

/-- State after logging one `putLogEvents` call. -/
def logPut (w : CWState) (p : Payload) : CWState :=
  { w with calls := w.calls ++ [RemoteCall.putLogEventsCall p] }

/-- The oracle's response to the next `putLogEvents` call from `w`. -/
def respPut (c : AwsClient) (w : CWState) (p : Payload) :
    Except JsError (Option String) :=
  c.putLogEvents (countPut w.calls) p

/-- State after logging one `describeLogStreams` call. -/
def logDescribe (w : CWState) (p : DescribeParams) : CWState :=
  { w with calls := w.calls ++ [RemoteCall.describeLogStreamsCall p] }

/-- The oracle's response to the next `describeLogStreams` call from `w`. -/
def respDescribe (c : AwsClient) (w : CWState) (p : DescribeParams) :
    Except JsError DescribeData :=
  c.describeLogStreams (countDescribe w.calls) p

/-- State after logging one `createLogGroup` call. -/
def logCreateGroup (w : CWState) (name : String) : CWState :=
  { w with calls := w.calls ++ [RemoteCall.createLogGroupCall name] }

/-- The oracle's response to the next `createLogGroup` call from `w`. -/
def respCreateGroup (c : AwsClient) (w : CWState) (name : String) :
    Except JsError Unit :=
  c.createLogGroup (countCreateGroup w.calls) name

/-- State after logging one `createLogStream` call. -/
def logCreateStream (w : CWState) (group stream : String) : CWState :=
  { w with calls := w.calls ++ [RemoteCall.createLogStreamCall group stream] }

/-- The oracle's response to the next `createLogStream` call from `w`. -/
def respCreateStream (c : AwsClient) (w : CWState) (group stream : String) :
    Except JsError Unit :=
  c.createLogStream (countCreateStream w.calls) group stream

/-- State after logging one `putRetentionPolicy` call. -/
def logRetention (w : CWState) (group : String) (days : Int) : CWState :=
  { w with calls := w.calls ++ [RemoteCall.putRetentionPolicyCall group days] }

/-- The oracle's response to the next `putRetentionPolicy` call from `w`. -/
def respRetention (c : AwsClient) (w : CWState) (group : String)
    (days : Int) : Except JsError Unit :=
  c.putRetentionPolicy (countRetention w.calls) group days

/-- `putRetentionPolicy` from the source: only issues the remote request when
`days > 0`; a failure of that request is written to `console.error` and goes
nowhere else (the function has no way to report it). -/
def putRetentionPolicy (c : AwsClient) (groupName : String) (days : Int)
    (w : CWState) : CWState :=
  if days > 0 then
    match respRetention c w groupName days with
    | Except.ok _ => logRetention w groupName days
    | Except.error e =>
      { logRetention w groupName days with consoleErrors :=
          w.consoleErrors ++
            ["failed to set retention policy for " ++ groupName ++ ": " ++
             e.errMessage] }
  else w

/-- `ignoreInProgress` from the source, applied to a response: an
`OperationAbortedException` or `ResourceAlreadyExistsException` outcome is
converted into success. -/
def ignoreInProgress : Except JsError Unit → Except JsError Unit
  | Except.error e =>
    if e.name = "OperationAbortedException" ||
        e.name = "ResourceAlreadyExistsException" then Except.ok ()
    else Except.error e
  | Except.ok d => Except.ok d

/-- `ensureGroupPresent` from the source.  Returns the `(err, result)` pair
passed to its callback. -/
def ensureGroupPresent (c : AwsClient) (name : String) (days : Int)
    (w : CWState) : CWState × Option JsError × Bool :=
  let w1 := logDescribe w { logGroupName := name }
  match respDescribe c w { logGroupName := name } with
  | Except.error e =>
    if e.name = "ResourceNotFoundException" then
      let w2 := logCreateGroup w1 name
      match ignoreInProgress (respCreateGroup c w1 name) with
      | Except.ok _ => (putRetentionPolicy c name days w2, none, true)
      | Except.error e2 => (w2, some e2, false)
    else
      (putRetentionPolicy c name days w1, some e, true)
  | Except.ok _ => (putRetentionPolicy c name days w1, none, true)

/-- `getStream` from the source: describe with a name filter, pick the
exact-name match, create the stream (tolerating in-progress races) and
re-describe when absent.  The re-describe loop is not structurally bounded in
the source, so the model carries explicit fuel; running out yields a
distinguished error no real run produces. -/
def getStream (c : AwsClient) (groupName streamName : String) :
    Nat → CWState → CWState × Except JsError LogStream
  | 0, w => (w, Except.error { name := "ModelFuelExhausted", errMessage := "" })
  | fuel + 1, w =>
    let params : DescribeParams :=
      { logGroupName := groupName, streamNameFilter := some streamName }
    let w1 := logDescribe w params
    match respDescribe c w params with
    | Except.error e => (w1, Except.error e)
    | Except.ok data =>
      match data.logStreams.find? (fun s => s.logStreamName = streamName) with
      | some s => (w1, Except.ok s)
      | none =>
        let w2 := logCreateStream w1 groupName streamName
        match ignoreInProgress (respCreateStream c w1 groupName streamName) with
        | Except.error e => (w2, Except.error e)
        | Except.ok _ => getStream c groupName streamName fuel w2

/-- `getToken` from the source.  Returns the `(err, token)` callback payload
as an `Except`: a cached entry that is neither absent nor `null` is used
directly; otherwise the group is ensured (unless `ensureLogGroup` is exactly
`false`) and the stream described/created to obtain its
`uploadSequenceToken`. -/
def getToken (c : AwsClient) (groupName streamName : String) (days : Int)
    (options : CWOptions) (fuel : Nat) (w : CWState) :
    CWState × Except JsError (Option String) :=
  match assocGet w.nextToken (previousKeyMapKey groupName streamName) with
  | some (some t) => (w, Except.ok (some t))
  | _ =>
    if options.ensureLogGroup ≠ some false then
      let er := ensureGroupPresent c groupName days w
      match er.2.1 with
      | some e1 => (er.1, Except.error e1)
      | none =>
        let sr := getStream c groupName streamName fuel er.1
        match sr.2 with
        | Except.error e2 => (sr.1, Except.error e2)
        | Except.ok s =>
          if er.2.2 then (sr.1, Except.ok s.uploadSequenceToken)
          else (sr.1, Except.ok none)
    else
      let sr := getStream c groupName streamName fuel w
      match sr.2 with
      | Except.error e => (sr.1, Except.error e)
      | Except.ok s => (sr.1, Except.ok s.uploadSequenceToken)

/-- Byte cost the carving loop assigns to a queue element before capping:
`Buffer.byteLength(ev.message, "utf8") + BASE_EVENT_SIZE_BYTES`, and `0` for
a null element (the `ev ? ... : 0` ternary in the source). -/
def evCost : Option LogEvent → Nat
  | some e => utf8Len e.message + BASE_EVENT_SIZE_BYTES
  | none => 0

/-- The message of the truncation error thrown by the source. -/
def truncationMessage : String :=
  "Message Truncated because it exceeds the CloudWatch size limit"

/-- The batch-carving `while` loop of `safeUpload`, walking the queue with
the byte accumulator.  Returns the final `entryIndex`, the queue after the
in-place truncations, and the truncation errors passed to `cb` during the
loop, in order.  An oversized event has its message cut to the first
`MAX_EVENT_MSG_SIZE_BYTES` UTF-16 units and its size capped, and the loop
continues (the source does not break there). -/
def carve : List (Option LogEvent) → Nat →
    Nat × List (Option LogEvent) × List JsError
  | [], _ => (0, [], [])
  | ev :: rest, bytes =>
    let step : Nat × Option LogEvent × List JsError :=
      if evCost ev > MAX_EVENT_MSG_SIZE_BYTES then
        match ev with
        | some e =>
          let e2 : LogEvent :=
            { e with message := e.message.take MAX_EVENT_MSG_SIZE_BYTES }
          (MAX_EVENT_MSG_SIZE_BYTES, some e2,
           [{ name := "Error", errMessage := truncationMessage,
              logEvent := some e2 }])
        | none => (MAX_EVENT_MSG_SIZE_BYTES, none, [])
      else (evCost ev, ev, [])
    if bytes + step.1 > MAX_BATCH_SIZE_BYTES then (0, step.2.1 :: rest, step.2.2)
    else
      let r := carve rest (bytes + step.1)
      (r.1 + 1, step.2.1 :: r.2.1, step.2.2 ++ r.2.2)

/-- `retrySubmit` from the source: submit the payload, recursing while the
submission fails and the budget is positive; the terminal outcome clears the
in-flight mark and is handed to `cb`. -/
def retrySubmit (c : AwsClient) (payload : Payload) :
    Nat → CWState → CWState × Option JsError
  | 0, w =>
    let w1 := logPut w payload
    match respPut c w payload with
    | Except.ok _ =>
      ({ w1 with postingEvents := postingDel w1.postingEvents payload.logStreamName },
       none)
    | Except.error e =>
      ({ w1 with postingEvents := postingDel w1.postingEvents payload.logStreamName },
       some e)
  | times + 1, w =>
    let w1 := logPut w payload
    match respPut c w payload with
    | Except.error _ => retrySubmit c payload times w1
    | Except.ok _ =>
      ({ w1 with postingEvents := postingDel w1.postingEvents payload.logStreamName },
       none)

/-- `submitWithAnotherToken` from the source: set the cached token to `null`,
re-run `getToken` (its error, if any, is ignored — the callback only reads
the token argument, which is then `undefined`), resubmit the same payload
with `token || undefined`, clear the in-flight mark, report the
resubmission's outcome. -/
def submitWithAnotherToken (c : AwsClient) (groupName streamName : String)
    (payload : Payload) (days : Int) (options : CWOptions) (fuel : Nat)
    (w : CWState) : CWState × Option JsError :=
  let w0 : CWState :=
    { w with nextToken :=
        assocSet w.nextToken (previousKeyMapKey groupName streamName) none }
  let gr := getToken c groupName streamName days options fuel w0
  let token : Option String :=
    match gr.2 with
    | Except.ok t => t
    | Except.error _ => none
  let p2 : Payload := { payload with sequenceToken := jsOr token }
  let w2 := logPut gr.1 p2
  match respPut c gr.1 p2 with
  | Except.ok _ =>
    ({ w2 with postingEvents := postingDel w2.postingEvents streamName }, none)
  | Except.error e =>
    ({ w2 with postingEvents := postingDel w2.postingEvents streamName },
     some e)

/-- `safeUpload` from the source, started on the state in which `upload` has
already marked the stream in-flight.  Returns the final state, the ordered
list of callback invocations (each the `err` argument of one `cb` call, after
the wrapper in `upload` has removed the in-flight mark), and what is left of
the caller's `logEvents` array. -/
def safeUpload (c : AwsClient) (groupName streamName : String)
    (logEvents : List (Option LogEvent)) (days : Int) (options : CWOptions)
    (fuel : Nat) (w : CWState) :
    CWState × List (Option JsError) × List (Option LogEvent) :=
  let gr := getToken c groupName streamName days options fuel w
  match gr.2 with
  | Except.error err =>
    ({ gr.1 with postingEvents := postingDel gr.1.postingEvents streamName },
     [some err], logEvents)
  | Except.ok token =>
    let cv := carve logEvents 0
    let payload : Payload :=
      { logGroupName := groupName, logStreamName := streamName,
        logEvents := cv.2.1.take cv.1,
        sequenceToken := jsOr token }
    let remaining := cv.2.1.drop cv.1
    -- each truncation `cb` ran the wrapper's delete, and the source then
    -- re-marks the stream in-flight just before `putLogEvents`
    let w2 : CWState :=
      { gr.1 with postingEvents :=
          postingSet (postingDel gr.1.postingEvents streamName) streamName }
    let w3 := logPut w2 payload
    match respPut c w2 payload with
    | Except.error err =>
      if err.name = "InvalidSequenceTokenException" ||
          err.name = "ResourceNotFoundException" then
        let sub := submitWithAnotherToken c groupName streamName payload days
          options fuel w3
        ({ sub.1 with postingEvents := postingDel sub.1.postingEvents streamName },
         cv.2.2.map some ++ [sub.2], remaining)
      else
        let rs := retrySubmit c payload 3 w3
        ({ rs.1 with postingEvents := postingDel rs.1.postingEvents streamName },
         cv.2.2.map some ++ [rs.2], remaining)
    | Except.ok data =>
      let w4 : CWState :=
        match data with
        | some t =>
          if t = "" then w3
          else
            let k := previousKeyMapKey groupName streamName
            { w3 with nextToken := assocSet w3.nextToken k (some t) }
        | none => w3
      ({ w4 with postingEvents := postingDel w4.postingEvents streamName },
       cv.2.2.map some ++ [none], remaining)

/-- `upload` from the source: the in-flight/empty-queue guard, then
`safeUpload` with the wrapper callback that removes the in-flight mark.
Returns the final state, the callback invocations in order, and what is left
of the caller's `logEvents` array. -/
def upload (c : AwsClient) (groupName streamName : String)
    (logEvents : List (Option LogEvent)) (days : Int) (options : CWOptions)
    (fuel : Nat) (w : CWState) :
    CWState × List (Option JsError) × List (Option LogEvent) :=
  if postingMem w.postingEvents streamName || logEvents.length ≤ 0 then
    (w, [none], logEvents)
  else
    safeUpload c groupName streamName logEvents days options fuel
      { w with postingEvents := postingSet w.postingEvents streamName }

/-- `clearSequenceToken` from the source. -/
def clearSequenceToken (w : CWState) (group stream : String) : CWState :=
  { w with nextToken := assocDel w.nextToken (previousKeyMapKey group stream) }

/-- Total carve cost of a list of queue elements. -/
def costSum (l : List (Option LogEvent)) : Nat := (l.map evCost).sum

/-- Length of the greedy prefix the carving loop accepts, starting from a
given byte accumulator, when no element needs truncation. -/
def chooseK : List (Option LogEvent) → Nat → Nat
  | [], _ => 0
  | ev :: rest, b =>
    if b + evCost ev > MAX_BATCH_SIZE_BYTES then 0
    else chooseK rest (b + evCost ev) + 1

theorem countPut_append (a b : List RemoteCall) :
    countPut (a ++ b) = countPut a + countPut b := by
  simp [countPut, List.filter_append]

theorem countDescribe_append (a b : List RemoteCall) :
    countDescribe (a ++ b) = countDescribe a + countDescribe b := by
  simp [countDescribe, List.filter_append]

theorem assocGet_assocSet_same (l : List (String × Option String))
    (k : String) (v : Option String) : assocGet (assocSet l k v) k = some v := by
  simp [assocGet, assocSet]

theorem assocGet_assocDel_same (l : List (String × Option String))
    (k : String) : assocGet (assocDel l k) k = none := by
  have h : List.find? (fun p => decide (p.1 = k)) (assocDel l k) = none := by
    rw [List.find?_eq_none]
    intro x hx
    rw [assocDel, List.mem_filter] at hx
    simpa using hx.2
  simp [assocGet, h]

/-- The state `w'` extends `w` by remote calls only, none of them an append:
`lib._postingEvents` and `lib._nextToken` are untouched. -/
def ExtendsNoPut (w w' : CWState) : Prop :=
  w'.postingEvents = w.postingEvents ∧ w'.nextToken = w.nextToken ∧
  ∃ new, w'.calls = w.calls ++ new ∧ countPut new = 0

theorem extendsNoPut_refl (w : CWState) : ExtendsNoPut w w :=
  ⟨rfl, rfl, [], by simp, by simp [countPut]⟩

theorem extendsNoPut_trans {w1 w2 w3 : CWState} (h1 : ExtendsNoPut w1 w2)
    (h2 : ExtendsNoPut w2 w3) : ExtendsNoPut w1 w3 := by
  obtain ⟨hp1, hn1, n1, hc1, hz1⟩ := h1
  obtain ⟨hp2, hn2, n2, hc2, hz2⟩ := h2
  refine ⟨hp2.trans hp1, hn2.trans hn1, n1 ++ n2, ?_, ?_⟩
  · simp [hc2, hc1]
  · simp [countPut_append, hz1, hz2]

theorem logDescribe_extends (w : CWState) (p : DescribeParams) :
    ExtendsNoPut w (logDescribe w p) :=
  ⟨rfl, rfl, [RemoteCall.describeLogStreamsCall p], rfl,
    by simp [countPut, isPutCall]⟩

theorem logCreateGroup_extends (w : CWState) (n : String) :
    ExtendsNoPut w (logCreateGroup w n) :=
  ⟨rfl, rfl, [RemoteCall.createLogGroupCall n], rfl,
    by simp [countPut, isPutCall]⟩

theorem logCreateStream_extends (w : CWState) (g s : String) :
    ExtendsNoPut w (logCreateStream w g s) :=
  ⟨rfl, rfl, [RemoteCall.createLogStreamCall g s], rfl,
    by simp [countPut, isPutCall]⟩

theorem putRetentionPolicy_extends (c : AwsClient) (g : String) (d : Int)
    (w : CWState) : ExtendsNoPut w (putRetentionPolicy c g d w) := by
  unfold putRetentionPolicy
  split
  · split
    · exact ⟨rfl, rfl, [RemoteCall.putRetentionPolicyCall g d], rfl,
        by simp [countPut, isPutCall]⟩
    · exact ⟨rfl, rfl, [RemoteCall.putRetentionPolicyCall g d], rfl,
        by simp [countPut, isPutCall]⟩
  · exact extendsNoPut_refl w

theorem ensureGroupPresent_extends (c : AwsClient) (n : String) (d : Int)
    (w : CWState) : ExtendsNoPut w (ensureGroupPresent c n d w).1 := by
  unfold ensureGroupPresent
  dsimp only
  split
  · split
    · split
      · exact extendsNoPut_trans
          (extendsNoPut_trans (logDescribe_extends ..) (logCreateGroup_extends ..))
          (putRetentionPolicy_extends ..)
      · exact extendsNoPut_trans (logDescribe_extends ..) (logCreateGroup_extends ..)
    · exact extendsNoPut_trans (logDescribe_extends ..) (putRetentionPolicy_extends ..)
  · exact extendsNoPut_trans (logDescribe_extends ..) (putRetentionPolicy_extends ..)

theorem getStream_extends (c : AwsClient) (g s : String) :
    ∀ (fuel : Nat) (w : CWState), ExtendsNoPut w (getStream c g s fuel w).1 := by
  intro fuel
  induction fuel with
  | zero => intro w; exact extendsNoPut_refl w
  | succ f ih =>
    intro w
    unfold getStream
    dsimp only
    split
    · exact logDescribe_extends ..
    · split
      · exact logDescribe_extends ..
      · split
        · exact extendsNoPut_trans
            (extendsNoPut_trans (logDescribe_extends ..) (logCreateStream_extends ..))
            (extendsNoPut_refl _)
        · exact extendsNoPut_trans
            (extendsNoPut_trans (logDescribe_extends ..) (logCreateStream_extends ..))
            (ih _)

theorem getToken_extends (c : AwsClient) (g s : String) (d : Int)
    (o : CWOptions) (fuel : Nat) (w : CWState) :
    ExtendsNoPut w (getToken c g s d o fuel w).1 := by
  unfold getToken
  dsimp only
  split
  · exact extendsNoPut_refl w
  · split
    · split
      · exact ensureGroupPresent_extends ..
      · split
        · exact extendsNoPut_trans (ensureGroupPresent_extends ..)
            (getStream_extends ..)
        · split
          · exact extendsNoPut_trans (ensureGroupPresent_extends ..)
              (getStream_extends ..)
          · exact extendsNoPut_trans (ensureGroupPresent_extends ..)
              (getStream_extends ..)
    · split
      · exact getStream_extends ..
      · exact getStream_extends ..

theorem costSum_nil : costSum [] = 0 := rfl

theorem costSum_cons (ev : Option LogEvent) (l : List (Option LogEvent)) :
    costSum (ev :: l) = evCost ev + costSum l := by
  simp [costSum]

theorem utf8Len_cons_of_not_high (u : Nat) (l : List Nat)
    (h : isHighSurrogate u = false) :
    utf8Len (u :: l) = utf16UnitUtf8Size u + utf8Len l := by
  cases l with
  | nil => simp [utf8Len]
  | cons v rest => simp [utf8Len, h]

theorem utf8Len_replicate_ascii (u : Nat) (hu : u < 128) (n : Nat) :
    utf8Len (List.replicate n u) = n := by
  induction n with
  | zero => rfl
  | succ m ih =>
    have hh : isHighSurrogate u = false := by
      simp only [isHighSurrogate, Bool.and_eq_false_iff, decide_eq_false_iff_not]
      left; omega
    have h1 : utf16UnitUtf8Size u = 1 := by simp [utf16UnitUtf8Size, hu]
    rw [List.replicate_succ, utf8Len_cons_of_not_high u _ hh, ih, h1]
    omega

theorem carve_no_oversize (q : List (Option LogEvent)) (b : Nat)
    (h : ∀ ev ∈ q, evCost ev ≤ MAX_EVENT_MSG_SIZE_BYTES) :
    carve q b = (chooseK q b, q, []) := by
  induction q generalizing b with
  | nil => simp [carve, chooseK]
  | cons ev rest ih =>
    have hev : evCost ev ≤ MAX_EVENT_MSG_SIZE_BYTES := h ev (by simp)
    have hrest : ∀ e ∈ rest, evCost e ≤ MAX_EVENT_MSG_SIZE_BYTES :=
      fun e he => h e (by simp [he])
    have h1 : ¬ evCost ev > MAX_EVENT_MSG_SIZE_BYTES := by omega
    by_cases h2 : b + evCost ev > MAX_BATCH_SIZE_BYTES
    · simp [carve, chooseK, h1, h2]
    · simp [carve, chooseK, h1, h2, ih (b + evCost ev) hrest]

theorem chooseK_le_length (q : List (Option LogEvent)) :
    ∀ b, chooseK q b ≤ q.length := by
  induction q with
  | nil => intro b; simp [chooseK]
  | cons ev rest ih =>
    intro b
    by_cases h : b + evCost ev > MAX_BATCH_SIZE_BYTES
    · simp [chooseK, h]
    · simp only [chooseK, h, if_neg, List.length_cons, if_false]
      exact Nat.succ_le_succ (ih _)

theorem chooseK_sum_le (q : List (Option LogEvent)) :
    ∀ b, b ≤ MAX_BATCH_SIZE_BYTES →
      b + costSum (q.take (chooseK q b)) ≤ MAX_BATCH_SIZE_BYTES := by
  induction q with
  | nil => intro b hb; simp [chooseK, costSum]; omega
  | cons ev rest ih =>
    intro b hb
    by_cases h : b + evCost ev > MAX_BATCH_SIZE_BYTES
    · simpa [chooseK, h, costSum]
    · have := ih (b + evCost ev) (by omega)
      simp only [chooseK, h, if_false, List.take_succ_cons, costSum_cons]
      omega

theorem chooseK_max (q : List (Option LogEvent)) :
    ∀ b, chooseK q b = q.length ∨
      b + costSum (q.take (chooseK q b + 1)) > MAX_BATCH_SIZE_BYTES := by
  induction q with
  | nil => intro b; left; simp [chooseK]
  | cons ev rest ih =>
    intro b
    by_cases h : b + evCost ev > MAX_BATCH_SIZE_BYTES
    · right
      simp only [chooseK, h, if_true, List.take_succ_cons, List.take_zero,
        costSum_cons, costSum_nil]
      omega
    · rcases ih (b + evCost ev) with hl | hr
      · left; simp [chooseK, h, hl]
      · right
        simp only [chooseK, h, if_false, List.take_succ_cons, costSum_cons]
        omega

theorem chooseK_pos (q : List (Option LogEvent)) (hq : q ≠ [])
    (h : ∀ ev ∈ q, evCost ev ≤ MAX_EVENT_MSG_SIZE_BYTES) :
    0 < chooseK q 0 := by
  cases q with
  | nil => exact absurd rfl hq
  | cons ev rest =>
    have hev : evCost ev ≤ MAX_EVENT_MSG_SIZE_BYTES := h ev (by simp)
    have hfit : ¬ MAX_BATCH_SIZE_BYTES < evCost ev := by
      simp only [MAX_EVENT_MSG_SIZE_BYTES, MAX_BATCH_SIZE_BYTES] at *
      omega
    simp [chooseK, hfit]

theorem getToken_cacheHit (c : AwsClient) (g s : String) (d : Int)
    (o : CWOptions) (fuel : Nat) (w : CWState) (t : String)
    (h : assocGet w.nextToken (previousKeyMapKey g s) = some (some t)) :
    getToken c g s d o fuel w = (w, Except.ok (some t)) := by
  unfold getToken
  rw [h]

/-- The state `w'` extends `w` in its call log (arbitrary new calls). -/
def ExtendsCalls (w w' : CWState) : Prop :=
  ∃ new, w'.calls = w.calls ++ new

theorem extendsCalls_trans {w1 w2 w3 : CWState} (h1 : ExtendsCalls w1 w2)
    (h2 : ExtendsCalls w2 w3) : ExtendsCalls w1 w3 := by
  obtain ⟨n1, hc1⟩ := h1
  obtain ⟨n2, hc2⟩ := h2
  exact ⟨n1 ++ n2, by simp [hc2, hc1]⟩

theorem extendsNoPut_extendsCalls {w w' : CWState} (h : ExtendsNoPut w w') :
    ExtendsCalls w w' := ⟨h.2.2.choose, h.2.2.choose_spec.1⟩

theorem retrySubmit_extendsCalls (c : AwsClient) (p : Payload) :
    ∀ (t : Nat) (w : CWState), ExtendsCalls w (retrySubmit c p t w).1 := by
  intro t
  induction t with
  | zero =>
    intro w
    unfold retrySubmit
    dsimp only
    split <;> exact ⟨[RemoteCall.putLogEventsCall p], rfl⟩
  | succ n ih =>
    intro w
    unfold retrySubmit
    dsimp only
    split
    · exact extendsCalls_trans ⟨[RemoteCall.putLogEventsCall p], rfl⟩ (ih _)
    · exact ⟨[RemoteCall.putLogEventsCall p], rfl⟩

theorem submitWithAnotherToken_extendsCalls (c : AwsClient) (g s : String)
    (p : Payload) (d : Int) (o : CWOptions) (fuel : Nat) (w : CWState) :
    ExtendsCalls w (submitWithAnotherToken c g s p d o fuel w).1 := by
  unfold submitWithAnotherToken
  dsimp only
  have hget := getToken_extends c g s d o fuel
    { w with nextToken := assocSet w.nextToken (previousKeyMapKey g s) none }
  have h1 : ExtendsCalls w (getToken c g s d o fuel
      { w with nextToken :=
          assocSet w.nextToken (previousKeyMapKey g s) none }).1 := by
    obtain ⟨-, -, new, hc, -⟩ := hget
    exact ⟨new, hc⟩
  split
  · exact extendsCalls_trans h1 ⟨[RemoteCall.putLogEventsCall _], rfl⟩
  · exact extendsCalls_trans h1 ⟨[RemoteCall.putLogEventsCall _], rfl⟩


/-- Concrete oracle for witnesses: appends succeed returning token `"T2"`,
describes find stream `"s"` with token `"T0"`, creations and retention
succeed. -/
def streamS : LogStream :=
  { logStreamName := "s", uploadSequenceToken := some "T0" }

def clientOk : AwsClient :=
  { putLogEvents := fun _ _ => Except.ok (some "T2"),
    describeLogStreams := fun _ _ => Except.ok { logStreams := [streamS] },
    createLogGroup := fun _ _ => Except.ok (),
    createLogStream := fun _ _ _ => Except.ok (),
    putRetentionPolicy := fun _ _ _ => Except.ok () }

/-- Concrete oracle whose group describe reports not-found and whose group
creation reports already-exists (a concurrent creator won the race). -/
def errGroupMissing : JsError :=
  { name := "ResourceNotFoundException", errMessage := "group missing" }

def errAlreadyExists : JsError :=
  { name := "ResourceAlreadyExistsException", errMessage := "race" }

def clientRace : AwsClient :=
  { clientOk with
    describeLogStreams := fun _ p =>
      match p.streamNameFilter with
      | none => Except.error errGroupMissing
      | some _ => Except.ok { logStreams := [streamS] },
    createLogGroup := fun _ _ => Except.error errAlreadyExists }

/-- A state with a cached token `"tok"` for the key `"g:s"` and nothing else. -/
def wCached : CWState :=
  { postingEvents := [], nextToken := [("g:s", some "tok")], calls := [],
    consoleErrors := [] }

/-- C5: a call to `upload` on a stream already marked in-flight, or with an
empty queue, returns immediately through the callback with no error and no
side effect: the state (in-flight guard, token store, remote-call log) and
the caller's queue are unchanged, and no append is submitted. -/
theorem upload_guard_noop (c : AwsClient) (g s : String)
    (q : List (Option LogEvent)) (d : Int) (o : CWOptions) (fuel : Nat)
    (w : CWState)
    (h : postingMem w.postingEvents s = true ∨ q = []) :
    upload c g s q d o fuel w = (w, [none], q) := by
  unfold upload
  rcases h with h | h
  · simp [h]
  · simp [h]

/-- A state in which stream `"s"` is already marked in-flight. -/
def wInFlight : CWState :=
  { postingEvents := ["s"], nextToken := [], calls := [], consoleErrors := [] }

/-- Witness for C5: a state with `"s"` in-flight and a non-empty queue. -/
theorem upload_guard_noop_witness :
    upload clientOk "g" "s" [some { message := [97], timestamp := 0 }] 0 {} 5
        wInFlight =
      (wInFlight, [none], [some { message := [97], timestamp := 0 }]) :=
  upload_guard_noop clientOk "g" "s" _ 0 {} 5 wInFlight (Or.inl (by decide))

theorem ensureGroupPresent_calls_shape (c : AwsClient) (n : String) (d : Int)
    (w : CWState) :
    ∃ rest, (ensureGroupPresent c n d w).1.calls =
      w.calls ++ RemoteCall.describeLogStreamsCall
        { logGroupName := n, streamNameFilter := none } :: rest := by
  unfold ensureGroupPresent
  dsimp only
  split
  · split
    · split
      · obtain ⟨-, -, new, hc, -⟩ := putRetentionPolicy_extends c n d
          (logCreateGroup (logDescribe w { logGroupName := n }) n)
        simp [logCreateGroup, logDescribe] at hc
        exact ⟨[RemoteCall.createLogGroupCall n] ++ new,
          by simp [logCreateGroup, logDescribe, hc]⟩
      · exact ⟨[RemoteCall.createLogGroupCall n], by
          simp [logCreateGroup, logDescribe]⟩
    · obtain ⟨-, -, new, hc, -⟩ := putRetentionPolicy_extends c n d
        (logDescribe w { logGroupName := n })
      simp [logDescribe] at hc
      exact ⟨new, by simp [logDescribe, hc]⟩
  · obtain ⟨-, -, new, hc, -⟩ := putRetentionPolicy_extends c n d
      (logDescribe w { logGroupName := n })
    simp [logDescribe] at hc
    exact ⟨new, by simp [logDescribe, hc]⟩

theorem getStream_calls_shape (c : AwsClient) (g s : String) (fuel : Nat)
    (w : CWState) :
    ∃ rest, (getStream c g s (fuel + 1) w).1.calls =
      w.calls ++ RemoteCall.describeLogStreamsCall
        { logGroupName := g, streamNameFilter := some s } :: rest := by
  unfold getStream
  dsimp only
  split
  · exact ⟨[], by simp [logDescribe]⟩
  · split
    · exact ⟨[], by simp [logDescribe]⟩
    · split
      · exact ⟨[RemoteCall.createLogStreamCall g s], by
          simp [logCreateStream, logDescribe]⟩
      · obtain ⟨-, -, new, hc, -⟩ := getStream_extends c g s fuel
          (logCreateStream (logDescribe w
            { logGroupName := g, streamNameFilter := some s }) g s)
        simp [logCreateStream, logDescribe] at hc
        exact ⟨[RemoteCall.createLogStreamCall g s] ++ new,
          by simp [logCreateStream, logDescribe, hc]⟩

/-- C7: (a) when the token store holds a (non-`null`) token for the key,
`getToken` returns it with no state change at all — in particular it makes
no remote describe/create/provisioning call; (b) after `clearSequenceToken`
for the key, the next `getToken` does not use a cached token: its very first
action is a remote `describeLogStreams` call (provisioning/describe),
whatever the options. -/
theorem getToken_trust_cache_and_clear :
    (∀ (c : AwsClient) (g s : String) (d : Int) (o : CWOptions) (fuel : Nat)
        (w : CWState) (t : String),
      assocGet w.nextToken (previousKeyMapKey g s) = some (some t) →
      getToken c g s d o fuel w = (w, Except.ok (some t))) ∧
    (∀ (c : AwsClient) (g s : String) (d : Int) (o : CWOptions) (fuel : Nat)
        (w : CWState), 0 < fuel →
      ∃ p rest, (getToken c g s d o fuel (clearSequenceToken w g s)).1.calls =
        w.calls ++ RemoteCall.describeLogStreamsCall p :: rest) := by
  constructor
  · intro c g s d o fuel w t h
    exact getToken_cacheHit c g s d o fuel w t h
  · intro c g s d o fuel w hfuel
    have hmiss : assocGet (clearSequenceToken w g s).nextToken
        (previousKeyMapKey g s) = none := by
      simp [clearSequenceToken, assocGet_assocDel_same]
    have hcalls : (clearSequenceToken w g s).calls = w.calls := rfl
    unfold getToken
    rw [hmiss]
    dsimp only
    by_cases ho : o.ensureLogGroup ≠ some false
    · rw [if_pos ho]
      obtain ⟨r1, hr1⟩ := ensureGroupPresent_calls_shape c g d
        (clearSequenceToken w g s)
      split
      · exact ⟨{ logGroupName := g }, r1, by rw [hr1, hcalls]⟩
      · split
        · obtain ⟨-, -, new, hc, -⟩ := getStream_extends c g s fuel
            (ensureGroupPresent c g d (clearSequenceToken w g s)).1
          exact ⟨{ logGroupName := g }, r1 ++ new, by simp [hc, hr1, hcalls]⟩
        · split
          · obtain ⟨-, -, new, hc, -⟩ := getStream_extends c g s fuel
              (ensureGroupPresent c g d (clearSequenceToken w g s)).1
            exact ⟨{ logGroupName := g }, r1 ++ new, by simp [hc, hr1, hcalls]⟩
          · obtain ⟨-, -, new, hc, -⟩ := getStream_extends c g s fuel
              (ensureGroupPresent c g d (clearSequenceToken w g s)).1
            exact ⟨{ logGroupName := g }, r1 ++ new, by simp [hc, hr1, hcalls]⟩
    · rw [if_neg ho]
      obtain ⟨f, rfl⟩ : ∃ f, fuel = f + 1 :=
        ⟨fuel - 1, by omega⟩
      obtain ⟨r1, hr1⟩ := getStream_calls_shape c g s f (clearSequenceToken w g s)
      split
      · exact ⟨{ logGroupName := g, streamNameFilter := some s }, r1,
          by rw [hr1, hcalls]⟩
      · exact ⟨{ logGroupName := g, streamNameFilter := some s }, r1,
          by rw [hr1, hcalls]⟩

/-- Witness for C7: a cached token is returned unchanged, and after a clear
the first new call of `getToken` is a describe. -/
theorem getToken_trust_cache_and_clear_witness :
    getToken clientOk "g" "s" 0 {} 5 wCached =
      (wCached, Except.ok (some "tok")) ∧
    ∃ p rest,
      (getToken clientOk "g" "s" 0 {} 5
          (clearSequenceToken wCached "g" "s")).1.calls =
        RemoteCall.describeLogStreamsCall p :: rest :=
  ⟨getToken_trust_cache_and_clear.1 clientOk "g" "s" 0 {} 5 wCached "tok"
     (by decide),
   by
     obtain ⟨p, rest, h⟩ := getToken_trust_cache_and_clear.2 clientOk "g" "s"
       0 {} 5 wCached (by decide)
     exact ⟨p, rest, by simpa [wCached] using h⟩⟩

/-- An empty initial state: nothing in flight, empty token store, no calls. -/
def wEmpty : CWState :=
  { postingEvents := [], nextToken := [], calls := [], consoleErrors := [] }

/-- Concrete oracle whose retention request fails; everything else as in
`clientOk`. -/
def clientRetFail : AwsClient :=
  { clientOk with putRetentionPolicy := fun _ _ _ =>
      Except.error { name := "AccessDenied", errMessage := "nope" } }

/-- C8: when the group describe reports not-found and the subsequent create
reports already-exists or operation-in-progress (a concurrent creator won
the race), `ensureGroupPresent` reports `present = true` and propagates no
error. -/
theorem ensureGroupPresent_create_race (c : AwsClient) (n : String) (d : Int)
    (w : CWState) (e1 e2 : JsError)
    (hd : respDescribe c w { logGroupName := n } = Except.error e1)
    (hn : e1.name = "ResourceNotFoundException")
    (hc : respCreateGroup c (logDescribe w { logGroupName := n }) n =
      Except.error e2)
    (hr : e2.name = "ResourceAlreadyExistsException" ∨
      e2.name = "OperationAbortedException") :
    (ensureGroupPresent c n d w).2 = (none, true) := by
  unfold ensureGroupPresent
  dsimp only
  rw [hd]
  dsimp only
  rw [if_pos hn, hc]
  unfold ignoreInProgress
  rcases hr with h | h <;> simp [h]

/-- Witness for C8: the racing oracle `clientRace`. -/
theorem ensureGroupPresent_create_race_witness :
    (ensureGroupPresent clientRace "g" 0 wEmpty).2 = (none, true) :=
  ensureGroupPresent_create_race clientRace "g" 0 wEmpty
    errGroupMissing errAlreadyExists rfl rfl rfl (Or.inl rfl)

/-- Two states that agree on everything the control flow and the remote
oracles can observe — the in-flight guard, the token store and the ordered
call log; only the `console.error` lines may differ. -/
abbrev EqObs (w w' : CWState) : Prop :=
  w.postingEvents = w'.postingEvents ∧ w.nextToken = w'.nextToken ∧
    w.calls = w'.calls

theorem respPut_cong (c1 c2 : AwsClient) (w w' : CWState) (q : Payload)
    (hP : c1.putLogEvents = c2.putLogEvents) (hc : w.calls = w'.calls) :
    respPut c2 w' q = respPut c1 w q := by
  simp [respPut, hP, hc]

theorem respDescribe_cong (c1 c2 : AwsClient) (w w' : CWState)
    (q : DescribeParams) (hD : c1.describeLogStreams = c2.describeLogStreams)
    (hc : w.calls = w'.calls) : respDescribe c2 w' q = respDescribe c1 w q := by
  simp [respDescribe, hD, hc]

theorem respCreateGroup_cong (c1 c2 : AwsClient) (w w' : CWState) (n : String)
    (hG : c1.createLogGroup = c2.createLogGroup) (hc : w.calls = w'.calls) :
    respCreateGroup c2 w' n = respCreateGroup c1 w n := by
  simp [respCreateGroup, hG, hc]

theorem respCreateStream_cong (c1 c2 : AwsClient) (w w' : CWState)
    (g s : String) (hS : c1.createLogStream = c2.createLogStream)
    (hc : w.calls = w'.calls) :
    respCreateStream c2 w' g s = respCreateStream c1 w g s := by
  simp [respCreateStream, hS, hc]

theorem putRetentionPolicy_cong (c1 c2 : AwsClient) (g : String) (d : Int)
    (w w' : CWState) (h : EqObs w w') :
    EqObs (putRetentionPolicy c1 g d w) (putRetentionPolicy c2 g d w') := by
  obtain ⟨hp, hn, hc⟩ := h
  by_cases hd : d > 0
  · simp only [putRetentionPolicy, if_pos hd]
    cases respRetention c1 w g d <;> cases respRetention c2 w' g d <;>
      exact ⟨hp, hn, by simp [logRetention, hc]⟩
  · simp only [putRetentionPolicy, if_neg hd]
    exact ⟨hp, hn, hc⟩

theorem ensureGroupPresent_cong (c1 c2 : AwsClient) (n : String) (d : Int)
    (w w' : CWState) (hD : c1.describeLogStreams = c2.describeLogStreams)
    (hG : c1.createLogGroup = c2.createLogGroup) (h : EqObs w w') :
    EqObs (ensureGroupPresent c1 n d w).1 (ensureGroupPresent c2 n d w').1 ∧
      (ensureGroupPresent c1 n d w).2 = (ensureGroupPresent c2 n d w').2 := by
  obtain ⟨hp, hn, hc⟩ := h
  unfold ensureGroupPresent
  dsimp only
  rw [respDescribe_cong c1 c2 w w' { logGroupName := n } hD hc]
  cases hcase : respDescribe c1 w { logGroupName := n } with
  | error e =>
    by_cases hname : e.name = "ResourceNotFoundException"
    · simp only [if_pos hname]
      rw [respCreateGroup_cong c1 c2 (logDescribe w { logGroupName := n })
        (logDescribe w' { logGroupName := n }) n hG
        (by simp [logDescribe, hc])]
      cases ignoreInProgress
          (respCreateGroup c1 (logDescribe w { logGroupName := n }) n) with
      | ok u =>
        exact ⟨putRetentionPolicy_cong c1 c2 n d _ _
          ⟨hp, hn, by simp [logCreateGroup, logDescribe, hc]⟩, rfl⟩
      | error e2 =>
        exact ⟨⟨hp, hn, by simp [logCreateGroup, logDescribe, hc]⟩, rfl⟩
    · simp only [if_neg hname]
      exact ⟨putRetentionPolicy_cong c1 c2 n d _ _
        ⟨hp, hn, by simp [logDescribe, hc]⟩, trivial⟩
  | ok r =>
    exact ⟨putRetentionPolicy_cong c1 c2 n d _ _
      ⟨hp, hn, by simp [logDescribe, hc]⟩, rfl⟩

theorem getStream_cong (c1 c2 : AwsClient) (g s : String)
    (hD : c1.describeLogStreams = c2.describeLogStreams)
    (hS : c1.createLogStream = c2.createLogStream) :
    ∀ (fuel : Nat) (w w' : CWState), EqObs w w' →
      EqObs (getStream c1 g s fuel w).1 (getStream c2 g s fuel w').1 ∧
        (getStream c1 g s fuel w).2 = (getStream c2 g s fuel w').2 := by
  intro fuel
  induction fuel with
  | zero =>
    intro w w' h
    exact ⟨h, rfl⟩
  | succ f ih =>
    intro w w' h
    obtain ⟨hp, hn, hc⟩ := h
    unfold getStream
    dsimp only
    rw [respDescribe_cong c1 c2 w w'
      { logGroupName := g, streamNameFilter := some s } hD hc]
    cases hcase : respDescribe c1 w
        { logGroupName := g, streamNameFilter := some s } with
    | error e => exact ⟨⟨hp, hn, by simp [logDescribe, hc]⟩, rfl⟩
    | ok data =>
      dsimp only
      cases hfind : data.logStreams.find? (fun t => t.logStreamName = s) with
      | some t => exact ⟨⟨hp, hn, by simp [logDescribe, hc]⟩, rfl⟩
      | none =>
        rw [respCreateStream_cong c1 c2
          (logDescribe w { logGroupName := g, streamNameFilter := some s })
          (logDescribe w' { logGroupName := g, streamNameFilter := some s })
          g s hS (by simp [logDescribe, hc])]
        cases ignoreInProgress (respCreateStream c1
            (logDescribe w { logGroupName := g, streamNameFilter := some s })
            g s) with
        | error e =>
          exact ⟨⟨hp, hn, by simp [logCreateStream, logDescribe, hc]⟩, rfl⟩
        | ok u =>
          exact ih _ _ ⟨hp, hn, by simp [logCreateStream, logDescribe, hc]⟩

theorem getToken_cong (c1 c2 : AwsClient) (g s : String) (d : Int)
    (o : CWOptions) (fuel : Nat) (w w' : CWState)
    (hD : c1.describeLogStreams = c2.describeLogStreams)
    (hG : c1.createLogGroup = c2.createLogGroup)
    (hS : c1.createLogStream = c2.createLogStream) (h : EqObs w w') :
    EqObs (getToken c1 g s d o fuel w).1 (getToken c2 g s d o fuel w').1 ∧
      (getToken c1 g s d o fuel w).2 = (getToken c2 g s d o fuel w').2 := by
  obtain ⟨hp, hn, hc⟩ := h
  obtain ⟨hE1, hE2⟩ := ensureGroupPresent_cong c1 c2 g d w w' hD hG ⟨hp, hn, hc⟩
  unfold getToken
  dsimp only
  rw [← hn]
  cases hg : assocGet w.nextToken (previousKeyMapKey g s) with
  | some ot =>
    cases ot with
    | some t => exact ⟨⟨hp, hn, hc⟩, rfl⟩
    | none =>
      dsimp only
      by_cases ho : o.ensureLogGroup ≠ some false
      · simp only [if_pos ho]
        rw [← hE2]
        cases hc1 : (ensureGroupPresent c1 g d w).2.1 with
        | some e1 => exact ⟨hE1, rfl⟩
        | none =>
          obtain ⟨hT1, hT2⟩ := getStream_cong c1 c2 g s hD hS fuel _ _ hE1
          rw [← hT2]
          cases hsr : (getStream c1 g s fuel (ensureGroupPresent c1 g d w).1).2 with
          | error e2 => exact ⟨hT1, rfl⟩
          | ok st =>
            cases hb : (ensureGroupPresent c1 g d w).2.2 with
            | true => exact ⟨hT1, rfl⟩
            | false => exact ⟨hT1, rfl⟩
      · simp only [if_neg ho]
        obtain ⟨hT1, hT2⟩ := getStream_cong c1 c2 g s hD hS fuel w w' ⟨hp, hn, hc⟩
        rw [← hT2]
        cases hsr : (getStream c1 g s fuel w).2 with
        | error e => exact ⟨hT1, rfl⟩
        | ok st => exact ⟨hT1, rfl⟩
  | none =>
    dsimp only
    by_cases ho : o.ensureLogGroup ≠ some false
    · simp only [if_pos ho]
      rw [← hE2]
      cases hc1 : (ensureGroupPresent c1 g d w).2.1 with
      | some e1 => exact ⟨hE1, rfl⟩
      | none =>
        obtain ⟨hT1, hT2⟩ := getStream_cong c1 c2 g s hD hS fuel _ _ hE1
        rw [← hT2]
        cases hsr : (getStream c1 g s fuel (ensureGroupPresent c1 g d w).1).2 with
        | error e2 => exact ⟨hT1, rfl⟩
        | ok st =>
          cases hb : (ensureGroupPresent c1 g d w).2.2 with
          | true => exact ⟨hT1, rfl⟩
          | false => exact ⟨hT1, rfl⟩
    · simp only [if_neg ho]
      obtain ⟨hT1, hT2⟩ := getStream_cong c1 c2 g s hD hS fuel w w' ⟨hp, hn, hc⟩
      rw [← hT2]
      cases hsr : (getStream c1 g s fuel w).2 with
      | error e => exact ⟨hT1, rfl⟩
      | ok st => exact ⟨hT1, rfl⟩

theorem retrySubmit_cong (c1 c2 : AwsClient) (p : Payload)
    (hP : c1.putLogEvents = c2.putLogEvents) :
    ∀ (times : Nat) (w w' : CWState), EqObs w w' →
      EqObs (retrySubmit c1 p times w).1 (retrySubmit c2 p times w').1 ∧
        (retrySubmit c1 p times w).2 = (retrySubmit c2 p times w').2 := by
  intro times
  induction times with
  | zero =>
    intro w w' h
    obtain ⟨hp, hn, hc⟩ := h
    unfold retrySubmit
    dsimp only
    rw [respPut_cong c1 c2 w w' p hP hc]
    cases hr : respPut c1 w p with
    | ok t =>
      exact ⟨⟨by simp [logPut, hp], by simp [logPut, hn],
        by simp [logPut, hc]⟩, rfl⟩
    | error e =>
      exact ⟨⟨by simp [logPut, hp], by simp [logPut, hn],
        by simp [logPut, hc]⟩, rfl⟩
  | succ t ih =>
    intro w w' h
    obtain ⟨hp, hn, hc⟩ := h
    unfold retrySubmit
    dsimp only
    rw [respPut_cong c1 c2 w w' p hP hc]
    cases hr : respPut c1 w p with
    | error e =>
      exact ih _ _ ⟨by simp [logPut, hp], by simp [logPut, hn],
        by simp [logPut, hc]⟩
    | ok u =>
      exact ⟨⟨by simp [logPut, hp], by simp [logPut, hn],
        by simp [logPut, hc]⟩, rfl⟩

theorem submitWithAnotherToken_cong (c1 c2 : AwsClient) (g s : String)
    (p : Payload) (d : Int) (o : CWOptions) (fuel : Nat) (w w' : CWState)
    (hP : c1.putLogEvents = c2.putLogEvents)
    (hD : c1.describeLogStreams = c2.describeLogStreams)
    (hG : c1.createLogGroup = c2.createLogGroup)
    (hS : c1.createLogStream = c2.createLogStream) (h : EqObs w w') :
    EqObs (submitWithAnotherToken c1 g s p d o fuel w).1
        (submitWithAnotherToken c2 g s p d o fuel w').1 ∧
      (submitWithAnotherToken c1 g s p d o fuel w).2 =
        (submitWithAnotherToken c2 g s p d o fuel w').2 := by
  obtain ⟨hp, hn, hc⟩ := h
  obtain ⟨⟨gp, gn, gc⟩, g2⟩ := getToken_cong c1 c2 g s d o fuel
    { w with nextToken := assocSet w.nextToken (previousKeyMapKey g s) none }
    { w' with nextToken := assocSet w'.nextToken (previousKeyMapKey g s) none }
    hD hG hS ⟨hp, by rw [hn], hc⟩
  unfold submitWithAnotherToken
  dsimp only
  rw [← g2]
  rw [respPut_cong c1 c2 _ _ _ hP gc]
  split
  · exact ⟨⟨by simp [logPut, gp], by simp [logPut, gn],
      by simp [logPut, gc]⟩, rfl⟩
  · exact ⟨⟨by simp [logPut, gp], by simp [logPut, gn],
      by simp [logPut, gc]⟩, rfl⟩

theorem safeUpload_cong (c1 c2 : AwsClient) (g s : String)
    (le : List (Option LogEvent)) (d : Int) (o : CWOptions) (fuel : Nat)
    (w w' : CWState) (hP : c1.putLogEvents = c2.putLogEvents)
    (hD : c1.describeLogStreams = c2.describeLogStreams)
    (hG : c1.createLogGroup = c2.createLogGroup)
    (hS : c1.createLogStream = c2.createLogStream) (h : EqObs w w') :
    EqObs (safeUpload c1 g s le d o fuel w).1
        (safeUpload c2 g s le d o fuel w').1 ∧
      (safeUpload c1 g s le d o fuel w).2 =
        (safeUpload c2 g s le d o fuel w').2 := by
  obtain ⟨hp, hn, hc⟩ := h
  obtain ⟨⟨gp, gn, gc⟩, g2⟩ :=
    getToken_cong c1 c2 g s d o fuel w w' hD hG hS ⟨hp, hn, hc⟩
  unfold safeUpload
  dsimp only
  rw [← g2]
  revert gp gn gc
  generalize (getToken c1 g s d o fuel w).1 = A
  generalize (getToken c2 g s d o fuel w').1 = B
  generalize (getToken c1 g s d o fuel w).2 = r
  generalize carve le 0 = cv
  intro gp gn gc
  split
  · exact ⟨⟨by simp [gp], gn, gc⟩, rfl⟩
  · rename_i token
    have hc2 :
        ({ A with
            postingEvents := postingSet (postingDel A.postingEvents s) s } :
          CWState).calls =
        ({ B with
            postingEvents := postingSet (postingDel B.postingEvents s) s } :
          CWState).calls := by
      simpa using gc
    rw [respPut_cong c1 c2 _ _ _ hP hc2]
    split
    · split
      · obtain ⟨⟨sp, sn, sc⟩, s2⟩ := submitWithAnotherToken_cong c1 c2 g s
          { logGroupName := g, logStreamName := s,
            logEvents := List.take cv.1 cv.2.1, sequenceToken := jsOr token }
          d o fuel
          (logPut
            { A with
                postingEvents := postingSet (postingDel A.postingEvents s) s }
            { logGroupName := g, logStreamName := s,
              logEvents := List.take cv.1 cv.2.1, sequenceToken := jsOr token })
          (logPut
            { B with
                postingEvents := postingSet (postingDel B.postingEvents s) s }
            { logGroupName := g, logStreamName := s,
              logEvents := List.take cv.1 cv.2.1, sequenceToken := jsOr token })
          hP hD hG hS
          ⟨by simp [logPut, gp], by simp [logPut, gn], by simp [logPut, gc]⟩
        rw [← s2]
        exact ⟨⟨by simp [sp], by simp [sn], by simp [sc]⟩, rfl⟩
      · obtain ⟨⟨sp, sn, sc⟩, s2⟩ := retrySubmit_cong c1 c2
          { logGroupName := g, logStreamName := s,
            logEvents := List.take cv.1 cv.2.1, sequenceToken := jsOr token }
          hP 3
          (logPut
            { A with
                postingEvents := postingSet (postingDel A.postingEvents s) s }
            { logGroupName := g, logStreamName := s,
              logEvents := List.take cv.1 cv.2.1, sequenceToken := jsOr token })
          (logPut
            { B with
                postingEvents := postingSet (postingDel B.postingEvents s) s }
            { logGroupName := g, logStreamName := s,
              logEvents := List.take cv.1 cv.2.1, sequenceToken := jsOr token })
          ⟨by simp [logPut, gp], by simp [logPut, gn], by simp [logPut, gc]⟩
        rw [← s2]
        exact ⟨⟨by simp [sp], by simp [sn], by simp [sc]⟩, rfl⟩
    · split
      · split
        · exact ⟨⟨by simp [logPut, gp], by simp [logPut, gn],
            by simp [logPut, gc]⟩, rfl⟩
        · exact ⟨⟨by simp [logPut, gp], by simp [logPut, gn],
            by simp [logPut, gc]⟩, rfl⟩
      · exact ⟨⟨by simp [logPut, gp], by simp [logPut, gn],
          by simp [logPut, gc]⟩, rfl⟩

theorem upload_cong (c1 c2 : AwsClient) (g s : String)
    (le : List (Option LogEvent)) (d : Int) (o : CWOptions) (fuel : Nat)
    (w : CWState) (hP : c1.putLogEvents = c2.putLogEvents)
    (hD : c1.describeLogStreams = c2.describeLogStreams)
    (hG : c1.createLogGroup = c2.createLogGroup)
    (hS : c1.createLogStream = c2.createLogStream) :
    EqObs (upload c1 g s le d o fuel w).1 (upload c2 g s le d o fuel w).1 ∧
      (upload c1 g s le d o fuel w).2 = (upload c2 g s le d o fuel w).2 := by
  unfold upload
  split
  · exact ⟨⟨rfl, rfl, rfl⟩, rfl⟩
  · exact safeUpload_cong c1 c2 g s le d o fuel _ _ hP hD hG hS ⟨rfl, rfl, rfl⟩

/-- C9: (1) a retention count of zero sends no retention request and changes
nothing; (2) with a positive count, a successful group describe (the group is
confirmed) is followed by exactly one retention request; (3) with a positive
count, a not-found describe followed by a group creation that succeeds —
including a creation race absorbed by `ignoreInProgress` — is followed by
exactly one retention request after the create call, and `ensureGroupPresent`
still reports `(none, true)`; (4) a failing retention request is appended to
`console.error`; (5) the `(err, present)` outcome of `ensureGroupPresent`
does not depend on the retention oracle at all; (6) neither `upload`'s
callback invocations, nor its remaining queue, nor any observable state
component (in-flight guard, token store, remote-call log) depend on the
retention oracle: two clients differing only in `putRetentionPolicy` drive
`upload` identically, so a retention failure is logged and never propagates
to the caller of `upload` or `ensureGroupPresent`. -/
theorem retention_policy_best_effort :
    (∀ (c : AwsClient) (g : String) (w : CWState),
      putRetentionPolicy c g 0 w = w) ∧
    (∀ (c : AwsClient) (n : String) (d : Int) (w : CWState) (r : DescribeData),
      0 < d → respDescribe c w { logGroupName := n } = Except.ok r →
      (ensureGroupPresent c n d w).1.calls =
        w.calls ++ [RemoteCall.describeLogStreamsCall { logGroupName := n },
          RemoteCall.putRetentionPolicyCall n d]) ∧
    (∀ (c : AwsClient) (n : String) (d : Int) (w : CWState) (e : JsError),
      0 < d → respDescribe c w { logGroupName := n } = Except.error e →
      e.name = "ResourceNotFoundException" →
      ignoreInProgress
          (respCreateGroup c (logDescribe w { logGroupName := n }) n) =
        Except.ok () →
      (ensureGroupPresent c n d w).1.calls =
        w.calls ++ [RemoteCall.describeLogStreamsCall { logGroupName := n },
          RemoteCall.createLogGroupCall n,
          RemoteCall.putRetentionPolicyCall n d] ∧
      (ensureGroupPresent c n d w).2 = (none, true)) ∧
    (∀ (c : AwsClient) (g : String) (d : Int) (w : CWState) (e : JsError),
      0 < d → respRetention c w g d = Except.error e →
      (putRetentionPolicy c g d w).consoleErrors =
        w.consoleErrors ++ ["failed to set retention policy for " ++ g ++
          ": " ++ e.errMessage]) ∧
    (∀ (c1 c2 : AwsClient) (n : String) (d : Int) (w : CWState),
      c1.describeLogStreams = c2.describeLogStreams →
      c1.createLogGroup = c2.createLogGroup →
      (ensureGroupPresent c1 n d w).2 = (ensureGroupPresent c2 n d w).2) ∧
    (∀ (c1 c2 : AwsClient) (g s : String) (le : List (Option LogEvent))
      (d : Int) (o : CWOptions) (fuel : Nat) (w : CWState),
      c1.putLogEvents = c2.putLogEvents →
      c1.describeLogStreams = c2.describeLogStreams →
      c1.createLogGroup = c2.createLogGroup →
      c1.createLogStream = c2.createLogStream →
      (upload c1 g s le d o fuel w).2 = (upload c2 g s le d o fuel w).2 ∧
        EqObs (upload c1 g s le d o fuel w).1
          (upload c2 g s le d o fuel w).1) := by
  refine ⟨?_, ?_, ?_, ?_, ?_, ?_⟩
  · intro c g w
    simp [putRetentionPolicy]
  · intro c n d w r hd hok
    unfold ensureGroupPresent
    dsimp only
    rw [hok]
    dsimp only
    unfold putRetentionPolicy
    rw [if_pos hd]
    split <;> simp [logRetention, logDescribe]
  · intro c n d w e hd hdesc hname hig
    unfold ensureGroupPresent
    dsimp only
    rw [hdesc]
    dsimp only
    rw [if_pos hname, hig]
    dsimp only
    refine ⟨?_, rfl⟩
    unfold putRetentionPolicy
    rw [if_pos hd]
    split <;> simp [logRetention, logCreateGroup, logDescribe]
  · intro c g d w e hd he
    unfold putRetentionPolicy
    rw [if_pos hd, he]
  · intro c1 c2 n d w hD hC
    unfold ensureGroupPresent
    dsimp only
    simp only [respDescribe, respCreateGroup, hD, hC]
    split
    · split
      · split <;> rfl
      · rfl
    · rfl
  · intro c1 c2 g s le d o fuel w h1 h2 h3 h4
    obtain ⟨hE, h2eq⟩ := upload_cong c1 c2 g s le d o fuel w h1 h2 h3 h4
    exact ⟨h2eq, hE⟩

/-- Witness for C9: zero retention is a no-op; `clientOk` requests retention
once after its successful describe; `clientRace` (describe not-found, create
racing) requests retention right after the creation and still reports
`(none, true)`; `clientRetFail` only logs its retention failure; and `upload`
run against `clientRetFail` and `clientOk` — oracles differing only in
`putRetentionPolicy` — produces identical callbacks, queue, guard, token
store and call log. -/
theorem retention_policy_best_effort_witness :
    putRetentionPolicy clientOk "g" 0 wEmpty = wEmpty ∧
    (ensureGroupPresent clientOk "g" 7 wEmpty).1.calls =
      [RemoteCall.describeLogStreamsCall { logGroupName := "g" },
       RemoteCall.putRetentionPolicyCall "g" 7] ∧
    ((ensureGroupPresent clientRace "g" 7 wEmpty).1.calls =
       [RemoteCall.describeLogStreamsCall { logGroupName := "g" },
        RemoteCall.createLogGroupCall "g",
        RemoteCall.putRetentionPolicyCall "g" 7] ∧
      (ensureGroupPresent clientRace "g" 7 wEmpty).2 = (none, true)) ∧
    (putRetentionPolicy clientRetFail "g" 7 wEmpty).consoleErrors =
      ["failed to set retention policy for g: nope"] ∧
    (ensureGroupPresent clientRetFail "g" 7 wEmpty).2 =
      (ensureGroupPresent clientOk "g" 7 wEmpty).2 ∧
    ((upload clientRetFail "g" "s" [some { message := [97], timestamp := 0 }]
        7 {} 5 wEmpty).2 =
      (upload clientOk "g" "s" [some { message := [97], timestamp := 0 }]
        7 {} 5 wEmpty).2 ∧
      EqObs (upload clientRetFail "g" "s"
          [some { message := [97], timestamp := 0 }] 7 {} 5 wEmpty).1
        (upload clientOk "g" "s" [some { message := [97], timestamp := 0 }]
          7 {} 5 wEmpty).1) := by
  refine ⟨retention_policy_best_effort.1 clientOk "g" wEmpty, ?_, ?_, ?_,
    ?_, ?_⟩
  · have h := retention_policy_best_effort.2.1 clientOk "g" 7 wEmpty
      { logStreams := [streamS] } (by omega) rfl
    simpa [wEmpty] using h
  · have h := retention_policy_best_effort.2.2.1 clientRace "g" 7 wEmpty
      errGroupMissing (by omega) rfl rfl rfl
    simpa [wEmpty] using h
  · have h := retention_policy_best_effort.2.2.2.1 clientRetFail "g" 7 wEmpty
      { name := "AccessDenied", errMessage := "nope" } (by omega) rfl
    simpa [wEmpty] using h
  · exact retention_policy_best_effort.2.2.2.2.1 clientRetFail clientOk "g" 7
      wEmpty rfl rfl
  · exact retention_policy_best_effort.2.2.2.2.2 clientRetFail clientOk "g"
      "s" [some { message := [97], timestamp := 0 }] 7 {} 5 wEmpty rfl rfl
      rfl rfl

theorem postingDel_postingSet (l : List String) (s : String) :
    postingDel (postingSet l s) s = postingDel l s := by
  unfold postingSet
  split
  · rfl
  · unfold postingDel
    rw [List.filter_cons]
    simp

theorem postingDel_of_not_mem (l : List String) (s : String)
    (h : postingMem l s = false) : postingDel l s = l := by
  simp only [postingMem] at h
  have hs : s ∉ l := by simpa using h
  unfold postingDel
  rw [List.filter_eq_self]
  intro x hx
  simp only [ne_eq, decide_eq_true_eq]
  intro hxs
  exact hs (hxs ▸ hx)

/-- `upload` on a cache-hit state with a non-empty queue of cap-respecting
events, reduced past the guard, token acquisition and the carving loop. -/
theorem upload_cacheHit_unfold (c : AwsClient) (g s : String)
    (q : List (Option LogEvent)) (d : Int) (o : CWOptions) (fuel : Nat)
    (w : CWState) (t : String)
    (hpost : postingMem w.postingEvents s = false) (hq : q ≠ [])
    (hcache : assocGet w.nextToken (previousKeyMapKey g s) = some (some t))
    (ht : t ≠ "")
    (hsize : ∀ ev ∈ q, evCost ev ≤ MAX_EVENT_MSG_SIZE_BYTES) :
    upload c g s q d o fuel w =
      (let payload : Payload :=
         { logGroupName := g, logStreamName := s,
           logEvents := q.take (chooseK q 0), sequenceToken := some t }
       let w2 : CWState :=
         { w with postingEvents := postingSet w.postingEvents s }
       let w3 := logPut w2 payload
       match respPut c w2 payload with
       | Except.error err =>
         if err.name = "InvalidSequenceTokenException" ||
             err.name = "ResourceNotFoundException" then
           let sub := submitWithAnotherToken c g s payload d o fuel w3
           ({ sub.1 with postingEvents := postingDel sub.1.postingEvents s },
            [sub.2], q.drop (chooseK q 0))
         else
           let rs := retrySubmit c payload 3 w3
           ({ rs.1 with postingEvents := postingDel rs.1.postingEvents s },
            [rs.2], q.drop (chooseK q 0))
       | Except.ok data =>
         let w4 : CWState :=
           match data with
           | some t2 =>
             if t2 = "" then w3
             else
               let k := previousKeyMapKey g s
               { w3 with nextToken := assocSet w3.nextToken k (some t2) }
           | none => w3
         ({ w4 with postingEvents := postingDel w4.postingEvents s },
          [none], q.drop (chooseK q 0))) := by
  have hlen : ¬ (postingMem w.postingEvents s || decide (q.length ≤ 0)) = true := by
    simp only [hpost, Bool.false_or, decide_eq_true_eq, Nat.not_le]
    exact List.length_pos.mpr hq
  unfold upload
  rw [if_neg hlen]
  unfold safeUpload
  have hcache2 : assocGet
      ({ w with postingEvents := postingSet w.postingEvents s } : CWState).nextToken
      (previousKeyMapKey g s) = some (some t) := hcache
  rw [getToken_cacheHit c g s d o fuel _ t hcache2]
  dsimp only
  rw [carve_no_oversize q 0 hsize]
  dsimp only
  have hset : postingSet (postingDel (postingSet w.postingEvents s) s) s =
      postingSet w.postingEvents s := by
    rw [postingDel_postingSet, postingDel_of_not_mem _ _ hpost]
  rw [hset]
  have hjs : jsOr (some t) = some t := by simp [jsOr, ht]
  rw [hjs]
  simp only [List.map_nil, List.nil_append]

/-- `upload` on a cache-hit state whose single append succeeds with a fresh
token: the batch is the greedy prefix, the guard ends clear, the token store
is updated, and the one append is the only remote call made. -/
theorem upload_cacheHit_ok (c : AwsClient) (g s : String)
    (q : List (Option LogEvent)) (d : Int) (o : CWOptions) (fuel : Nat)
    (w : CWState) (t t2 : String)
    (hpost : postingMem w.postingEvents s = false) (hq : q ≠ [])
    (hcache : assocGet w.nextToken (previousKeyMapKey g s) = some (some t))
    (ht : t ≠ "")
    (hsize : ∀ ev ∈ q, evCost ev ≤ MAX_EVENT_MSG_SIZE_BYTES)
    (hput : respPut c { w with postingEvents := postingSet w.postingEvents s }
        { logGroupName := g, logStreamName := s,
          logEvents := q.take (chooseK q 0), sequenceToken := some t } =
      Except.ok (some t2))
    (ht2 : t2 ≠ "") :
    upload c g s q d o fuel w =
      ({ w with
          nextToken := assocSet w.nextToken (previousKeyMapKey g s) (some t2),
          calls := w.calls ++ [RemoteCall.putLogEventsCall
            { logGroupName := g, logStreamName := s,
              logEvents := q.take (chooseK q 0), sequenceToken := some t }] },
       [none], q.drop (chooseK q 0)) := by
  rw [upload_cacheHit_unfold c g s q d o fuel w t hpost hq hcache ht hsize]
  dsimp only
  rw [hput]
  dsimp only
  rw [if_neg ht2]
  dsimp only [logPut]
  have hdel : postingDel (postingSet w.postingEvents s) s = w.postingEvents := by
    rw [postingDel_postingSet, postingDel_of_not_mem _ _ hpost]
  simp [hdel]

/-- C1: for a non-empty queue of cap-respecting events and a stream not
in-flight (with a cached usable token), `upload` submits and removes from
the front of the queue exactly the longest prefix whose total cost
(`utf8Len(message) + 26` per event) fits in 1,000,000 bytes, leaving the
rest queued in order; in particular, five events of 250,026 bytes each are
submitted as a batch of three followed, on a second call, by the remaining
two. -/
theorem upload_longest_prefix :
    (∀ (c : AwsClient) (g s : String) (q : List (Option LogEvent)) (d : Int)
        (o : CWOptions) (fuel : Nat) (w : CWState) (t : String),
      postingMem w.postingEvents s = false → q ≠ [] →
      assocGet w.nextToken (previousKeyMapKey g s) = some (some t) →
      t ≠ "" →
      (∀ ev ∈ q, evCost ev ≤ MAX_EVENT_MSG_SIZE_BYTES) →
      ∃ k rest,
        (upload c g s q d o fuel w).2.2 = q.drop k ∧
        (upload c g s q d o fuel w).1.calls =
          w.calls ++ RemoteCall.putLogEventsCall
            { logGroupName := g, logStreamName := s,
              logEvents := q.take k, sequenceToken := some t } :: rest ∧
        costSum (q.take k) ≤ MAX_BATCH_SIZE_BYTES ∧
        (k = q.length ∨ MAX_BATCH_SIZE_BYTES < costSum (q.take (k + 1))) ∧
        0 < k) ∧
    (∀ (m1 m2 m3 m4 m5 : List Nat) (t1 t2 t3 t4 t5 : Int) (fuel : Nat),
      utf8Len m1 = 250000 → utf8Len m2 = 250000 → utf8Len m3 = 250000 →
      utf8Len m4 = 250000 → utf8Len m5 = 250000 →
      let q : List (Option LogEvent) :=
        [some ⟨m1, t1⟩, some ⟨m2, t2⟩, some ⟨m3, t3⟩, some ⟨m4, t4⟩,
         some ⟨m5, t5⟩]
      let r1 := upload clientOk "g" "s" q 0 {} fuel wCached
      let r2 := upload clientOk "g" "s" r1.2.2 0 {} fuel r1.1
      r1.2.2 = [some ⟨m4, t4⟩, some ⟨m5, t5⟩] ∧
      r1.1.calls = [RemoteCall.putLogEventsCall
        { logGroupName := "g", logStreamName := "s",
          logEvents := [some ⟨m1, t1⟩, some ⟨m2, t2⟩, some ⟨m3, t3⟩],
          sequenceToken := some "tok" }] ∧
      r2.2.2 = [] ∧
      r2.1.calls = r1.1.calls ++ [RemoteCall.putLogEventsCall
        { logGroupName := "g", logStreamName := "s",
          logEvents := [some ⟨m4, t4⟩, some ⟨m5, t5⟩],
          sequenceToken := some "T2" }]) := by
  constructor
  · intro c g s q d o fuel w t hpost hq hcache ht hsize
    have hcost1 : costSum (q.take (chooseK q 0)) ≤ MAX_BATCH_SIZE_BYTES := by
      have := chooseK_sum_le q 0 (by simp [MAX_BATCH_SIZE_BYTES])
      omega
    have hcost2 : chooseK q 0 = q.length ∨
        MAX_BATCH_SIZE_BYTES < costSum (q.take (chooseK q 0 + 1)) := by
      rcases chooseK_max q 0 with h | h
      · exact Or.inl h
      · exact Or.inr (by omega)
    have hcost3 : 0 < chooseK q 0 := chooseK_pos q hq hsize
    rw [upload_cacheHit_unfold c g s q d o fuel w t hpost hq hcache ht hsize]
    dsimp only
    cases hp : respPut c { w with postingEvents := postingSet w.postingEvents s }
        { logGroupName := g, logStreamName := s,
          logEvents := q.take (chooseK q 0), sequenceToken := some t } with
    | error e =>
      dsimp only
      by_cases hcl : (e.name = "InvalidSequenceTokenException" ||
          e.name = "ResourceNotFoundException") = true
      · rw [if_pos hcl]
        obtain ⟨new, hc⟩ := submitWithAnotherToken_extendsCalls c g s
          { logGroupName := g, logStreamName := s,
            logEvents := q.take (chooseK q 0), sequenceToken := some t }
          d o fuel (logPut { w with postingEvents := postingSet w.postingEvents s }
            { logGroupName := g, logStreamName := s,
              logEvents := q.take (chooseK q 0), sequenceToken := some t })
        simp only [logPut] at hc
        refine ⟨chooseK q 0, new, rfl, ?_, hcost1, hcost2, hcost3⟩
        simp only [logPut]
        simp [hc]
      · rw [if_neg hcl]
        obtain ⟨new, hc⟩ := retrySubmit_extendsCalls c
          { logGroupName := g, logStreamName := s,
            logEvents := q.take (chooseK q 0), sequenceToken := some t }
          3 (logPut { w with postingEvents := postingSet w.postingEvents s }
            { logGroupName := g, logStreamName := s,
              logEvents := q.take (chooseK q 0), sequenceToken := some t })
        simp only [logPut] at hc
        refine ⟨chooseK q 0, new, rfl, ?_, hcost1, hcost2, hcost3⟩
        simp only [logPut]
        simp [hc]
    | ok data =>
      dsimp only
      cases data with
      | none =>
        dsimp only
        refine ⟨chooseK q 0, [], rfl, ?_, hcost1, hcost2, hcost3⟩
        simp [logPut]
      | some t2 =>
        dsimp only
        by_cases ht2 : t2 = ""
        · rw [if_pos ht2]
          refine ⟨chooseK q 0, [], rfl, ?_, hcost1, hcost2, hcost3⟩
          simp [logPut]
        · rw [if_neg ht2]
          refine ⟨chooseK q 0, [], rfl, ?_, hcost1, hcost2, hcost3⟩
          simp [logPut]
  · intro m1 m2 m3 m4 m5 t1 t2 t3 t4 t5 fuel h1 h2 h3 h4 h5
    dsimp only
    have hsize : ∀ ev ∈ ([some ⟨m1, t1⟩, some ⟨m2, t2⟩, some ⟨m3, t3⟩,
        some ⟨m4, t4⟩, some ⟨m5, t5⟩] : List (Option LogEvent)),
        evCost ev ≤ MAX_EVENT_MSG_SIZE_BYTES := by
      intro ev hev
      simp only [List.mem_cons, List.not_mem_nil, or_false] at hev
      rcases hev with rfl | rfl | rfl | rfl | rfl <;>
        simp [evCost, h1, h2, h3, h4, h5, MAX_EVENT_MSG_SIZE_BYTES,
          BASE_EVENT_SIZE_BYTES]
    have hk : chooseK ([some ⟨m1, t1⟩, some ⟨m2, t2⟩, some ⟨m3, t3⟩,
        some ⟨m4, t4⟩, some ⟨m5, t5⟩] : List (Option LogEvent)) 0 = 3 := by
      simp [chooseK, evCost, h1, h2, h3, h4, h5, MAX_BATCH_SIZE_BYTES,
        BASE_EVENT_SIZE_BYTES]
    have hcache1 : assocGet wCached.nextToken (previousKeyMapKey "g" "s") =
        some (some "tok") := by decide
    have r1eq := upload_cacheHit_ok clientOk "g" "s"
      ([some ⟨m1, t1⟩, some ⟨m2, t2⟩, some ⟨m3, t3⟩, some ⟨m4, t4⟩,
        some ⟨m5, t5⟩]) 0 {} fuel wCached "tok" "T2" (by decide) (by simp)
      hcache1 (by decide) hsize rfl (by decide)
    rw [hk] at r1eq
    simp only [List.take_succ_cons, List.take_zero, List.drop_succ_cons,
      List.drop_zero] at r1eq
    rw [r1eq]
    dsimp only
    have hsize2 : ∀ ev ∈ ([some ⟨m4, t4⟩, some ⟨m5, t5⟩] :
        List (Option LogEvent)), evCost ev ≤ MAX_EVENT_MSG_SIZE_BYTES := by
      intro ev hev
      simp only [List.mem_cons, List.not_mem_nil, or_false] at hev
      rcases hev with rfl | rfl <;>
        simp [evCost, h4, h5, MAX_EVENT_MSG_SIZE_BYTES, BASE_EVENT_SIZE_BYTES]
    have hk2 : chooseK ([some ⟨m4, t4⟩, some ⟨m5, t5⟩] :
        List (Option LogEvent)) 0 = 2 := by
      simp [chooseK, evCost, h4, h5, MAX_BATCH_SIZE_BYTES,
        BASE_EVENT_SIZE_BYTES]
    have hcache2 : assocGet (assocSet wCached.nextToken
        (previousKeyMapKey "g" "s") (some "T2")) (previousKeyMapKey "g" "s") =
        some (some "T2") := assocGet_assocSet_same ..
    have r2eq := upload_cacheHit_ok clientOk "g" "s"
      ([some ⟨m4, t4⟩, some ⟨m5, t5⟩]) 0 {} fuel
      { wCached with
          nextToken := assocSet wCached.nextToken
            (previousKeyMapKey "g" "s") (some "T2"),
          calls := wCached.calls ++ [RemoteCall.putLogEventsCall
            { logGroupName := "g", logStreamName := "s",
              logEvents := [some ⟨m1, t1⟩, some ⟨m2, t2⟩, some ⟨m3, t3⟩],
              sequenceToken := some "tok" }] }
      "T2" "T2" rfl (by simp) hcache2 (by decide) hsize2 rfl (by decide)
    rw [hk2] at r2eq
    simp only [List.take_succ_cons, List.take_zero, List.drop_succ_cons,
      List.drop_zero] at r2eq
    rw [r2eq]
    simp [wCached]


/-- Witness for C1: the general part at a one-event queue, and the scenario
at five concrete 250,000-byte messages. -/
theorem upload_longest_prefix_witness :
    (∃ k rest,
      (upload clientOk "g" "s" [some { message := [97], timestamp := 0 }]
          0 {} 5 wCached).2.2 =
        List.drop k [some { message := [97], timestamp := 0 }] ∧
      (upload clientOk "g" "s" [some { message := [97], timestamp := 0 }]
          0 {} 5 wCached).1.calls =
        wCached.calls ++ RemoteCall.putLogEventsCall
          { logGroupName := "g", logStreamName := "s",
            logEvents := List.take k [some { message := [97], timestamp := 0 }],
            sequenceToken := some "tok" } :: rest ∧
      costSum (List.take k [some { message := [97], timestamp := 0 }]) ≤
        MAX_BATCH_SIZE_BYTES ∧
      (k = ([some ({ message := [97], timestamp := 0 } : LogEvent)]).length ∨
        MAX_BATCH_SIZE_BYTES < costSum
          (List.take (k + 1) [some { message := [97], timestamp := 0 }])) ∧
      0 < k) ∧
    (let q : List (Option LogEvent) :=
       [some ⟨List.replicate 250000 97, 1⟩, some ⟨List.replicate 250000 97, 2⟩,
        some ⟨List.replicate 250000 97, 3⟩, some ⟨List.replicate 250000 97, 4⟩,
        some ⟨List.replicate 250000 97, 5⟩]
     let r1 := upload clientOk "g" "s" q 0 {} 5 wCached
     let r2 := upload clientOk "g" "s" r1.2.2 0 {} 5 r1.1
     r1.2.2 = [some ⟨List.replicate 250000 97, 4⟩,
       some ⟨List.replicate 250000 97, 5⟩] ∧
     r1.1.calls = [RemoteCall.putLogEventsCall
       { logGroupName := "g", logStreamName := "s",
         logEvents := [some ⟨List.replicate 250000 97, 1⟩,
           some ⟨List.replicate 250000 97, 2⟩,
           some ⟨List.replicate 250000 97, 3⟩],
         sequenceToken := some "tok" }] ∧
     r2.2.2 = [] ∧
     r2.1.calls = r1.1.calls ++ [RemoteCall.putLogEventsCall
       { logGroupName := "g", logStreamName := "s",
         logEvents := [some ⟨List.replicate 250000 97, 4⟩,
           some ⟨List.replicate 250000 97, 5⟩],
         sequenceToken := some "T2" }]) := by
  constructor
  · exact upload_longest_prefix.1 clientOk "g" "s"
      [some { message := [97], timestamp := 0 }] 0 {} 5 wCached "tok"
      (by decide) (by simp) (by decide) (by decide)
      (by
        intro ev hev
        simp only [List.mem_cons, List.not_mem_nil, or_false] at hev
        subst hev
        simp [evCost, utf8Len, utf16UnitUtf8Size, MAX_EVENT_MSG_SIZE_BYTES,
          BASE_EVENT_SIZE_BYTES])
  · have h := utf8Len_replicate_ascii 97 (by omega) 250000
    exact upload_longest_prefix.2 (List.replicate 250000 97)
      (List.replicate 250000 97) (List.replicate 250000 97)
      (List.replicate 250000 97) (List.replicate 250000 97)
      1 2 3 4 5 5 h h h h h

/-- C6: after `upload` acquires a token, carves a batch, and the append
succeeds with a (truthy) next token, the token store entry for
`(groupName, streamName)` holds that new token — overwriting any earlier
entry. -/
theorem upload_success_stores_token (c : AwsClient) (g s : String)
    (q : List (Option LogEvent)) (d : Int) (o : CWOptions) (fuel : Nat)
    (w w1 : CWState) (token : Option String) (t2 : String)
    (hpost : postingMem w.postingEvents s = false) (hq : q ≠ [])
    (hget : getToken c g s d o fuel
      { w with postingEvents := postingSet w.postingEvents s } =
      (w1, Except.ok token))
    (hput : respPut c
        { w1 with postingEvents := postingSet (postingDel w1.postingEvents s) s }
        { logGroupName := g, logStreamName := s,
          logEvents := (carve q 0).2.1.take (carve q 0).1,
          sequenceToken := jsOr token } = Except.ok (some t2))
    (ht2 : t2 ≠ "") :
    assocGet (upload c g s q d o fuel w).1.nextToken
      (previousKeyMapKey g s) = some (some t2) := by
  have hlen : ¬ (postingMem w.postingEvents s || decide (q.length ≤ 0)) = true := by
    simp only [hpost, Bool.false_or, decide_eq_true_eq, Nat.not_le]
    exact List.length_pos.mpr hq
  unfold upload
  rw [if_neg hlen]
  unfold safeUpload
  dsimp only
  rw [hget]
  dsimp only
  rw [hput]
  dsimp only
  rw [if_neg ht2]
  simp [logPut, assocGet_assocSet_same]

/-- Witness for C6: a fresh stream with no cached token; the token found by
describe is used and the append's `"T2"` ends up stored. -/
theorem upload_success_stores_token_witness :
    assocGet (upload clientOk "g" "s" [some { message := [97], timestamp := 0 }]
        0 { ensureLogGroup := some false } 5 wEmpty).1.nextToken
      (previousKeyMapKey "g" "s") = some (some "T2") :=
  upload_success_stores_token clientOk "g" "s"
    [some { message := [97], timestamp := 0 }] 0
    { ensureLogGroup := some false } 5 wEmpty
    { postingEvents := ["s"], nextToken := [],
      calls := [RemoteCall.describeLogStreamsCall
        { logGroupName := "g", streamNameFilter := some "s" }],
      consoleErrors := [] }
    (some "T0") "T2" (by decide) (by simp) rfl rfl (by decide)

theorem countPut_snoc_put (l : List RemoteCall) (p : Payload) :
    countPut (l ++ [RemoteCall.putLogEventsCall p]) = countPut l + 1 := by
  simp [countPut_append, countPut, isPutCall]

/-- What the source's callbacks receive for a response: `undefined` on
success, the error otherwise. -/
def cbOut : Except JsError (Option String) → Option JsError
  | Except.ok _ => none
  | Except.error e => some e

/-- The `token` argument the `getToken` callback receives (`undefined` when
`getToken` reported an error). -/
def cbToken : Except JsError (Option String) → Option String
  | Except.ok t => t
  | Except.error _ => none

/-- `retrySubmit` when every submission fails: it performs exactly
`times + 1` further submissions of the same payload and reports the last
error. -/
theorem retrySubmit_all_fail (c : AwsClient) (p : Payload) :
    ∀ (times : Nat) (w : CWState) (es : Nat → JsError),
      (∀ j, j ≤ times → c.putLogEvents (countPut w.calls + j) p =
        Except.error (es j)) →
      retrySubmit c p times w =
        ({ w with
            postingEvents := postingDel w.postingEvents p.logStreamName,
            calls := w.calls ++
              List.replicate (times + 1) (RemoteCall.putLogEventsCall p) },
         some (es times)) := by
  intro times
  induction times with
  | zero =>
    intro w es h
    have h0 : respPut c w p = Except.error (es 0) := by
      have := h 0 (by omega)
      simpa [respPut] using this
    unfold retrySubmit
    dsimp only
    rw [h0]
    simp [logPut]
  | succ n ih =>
    intro w es h
    have h0 : respPut c w p = Except.error (es 0) := by
      have := h 0 (by omega)
      simpa [respPut] using this
    have hstep := ih (logPut w p) (fun j => es (j + 1)) (by
      intro j hj
      have hidx : countPut (logPut w p).calls + j = countPut w.calls + (j + 1) := by
        have : (logPut w p).calls = w.calls ++ [RemoteCall.putLogEventsCall p] := rfl
        rw [this, countPut_snoc_put]
        omega
      rw [hidx]
      exact h (j + 1) (by omega))
    unfold retrySubmit
    dsimp only
    rw [h0, hstep]
    simp [logPut, List.replicate_succ, List.append_assoc]

/-- Concrete oracle whose appends always fail with an unclassified error. -/
def clientBoom : AwsClient :=
  { clientOk with putLogEvents := fun _ _ =>
      Except.error { name := "Boom", errMessage := "boom" } }

/-- C3 counterexample: with a cached token and every append failing with a
non-classified error, one `upload` call performs 5 append submissions in
total — one initial plus 4 retries — not the 1 + 3 the claim allows; the
last error is the outcome. -/
theorem upload_retry_count_counterexample :
    countPut (upload clientBoom "g" "s"
      [some { message := [97], timestamp := 0 }] 0 {} 5 wCached).1.calls = 5 ∧
    ¬ countPut (upload clientBoom "g" "s"
      [some { message := [97], timestamp := 0 }] 0 {} 5 wCached).1.calls ≤ 1 + 3 ∧
    (upload clientBoom "g" "s"
      [some { message := [97], timestamp := 0 }] 0 {} 5 wCached).2.1 =
      [some { name := "Boom", errMessage := "boom" }] := by
  refine ⟨by decide, by decide, by decide⟩

/-- C3 (amended): when the first append fails with a non-classified error,
`upload` retries the identical submission 4 more times (the retry helper,
invoked with budget 3, submits once per budget value 3, 2, 1, 0), for 5
submissions in total; if all fail, the last error is the call's outcome and
the carved batch is still removed from the queue. -/
theorem upload_retry_exhaustion (c : AwsClient) (g s : String)
    (q : List (Option LogEvent)) (d : Int) (o : CWOptions) (fuel : Nat)
    (w : CWState) (t : String) (es : Nat → JsError)
    (hpost : postingMem w.postingEvents s = false) (hq : q ≠ [])
    (hcache : assocGet w.nextToken (previousKeyMapKey g s) = some (some t))
    (ht : t ≠ "")
    (hsize : ∀ ev ∈ q, evCost ev ≤ MAX_EVENT_MSG_SIZE_BYTES)
    (hp : ∀ j, j ≤ 4 → c.putLogEvents (countPut w.calls + j)
      { logGroupName := g, logStreamName := s,
        logEvents := q.take (chooseK q 0), sequenceToken := some t } =
      Except.error (es j))
    (hn1 : (es 0).name ≠ "InvalidSequenceTokenException")
    (hn2 : (es 0).name ≠ "ResourceNotFoundException") :
    (upload c g s q d o fuel w).2.1 = [some (es 4)] ∧
    (upload c g s q d o fuel w).1.calls = w.calls ++ List.replicate 5
      (RemoteCall.putLogEventsCall
        { logGroupName := g, logStreamName := s,
          logEvents := q.take (chooseK q 0), sequenceToken := some t }) ∧
    countPut (upload c g s q d o fuel w).1.calls = countPut w.calls + 5 ∧
    (upload c g s q d o fuel w).2.2 = q.drop (chooseK q 0) := by
  rw [upload_cacheHit_unfold c g s q d o fuel w t hpost hq hcache ht hsize]
  dsimp only
  have hput0 : respPut c { w with postingEvents := postingSet w.postingEvents s }
      { logGroupName := g, logStreamName := s,
        logEvents := q.take (chooseK q 0), sequenceToken := some t } =
      Except.error (es 0) := by
    have := hp 0 (by omega)
    simpa [respPut] using this
  rw [hput0]
  dsimp only
  rw [if_neg (by simp [hn1, hn2])]
  have hretry := retrySubmit_all_fail c
    { logGroupName := g, logStreamName := s,
      logEvents := q.take (chooseK q 0), sequenceToken := some t } 3
    (logPut { w with postingEvents := postingSet w.postingEvents s }
      { logGroupName := g, logStreamName := s,
        logEvents := q.take (chooseK q 0), sequenceToken := some t })
    (fun j => es (j + 1)) (by
      intro j hj
      have hidx : countPut (logPut
          { w with postingEvents := postingSet w.postingEvents s }
          { logGroupName := g, logStreamName := s,
            logEvents := q.take (chooseK q 0),
            sequenceToken := some t }).calls + j = countPut w.calls + (j + 1) := by
        rw [show (logPut { w with postingEvents := postingSet w.postingEvents s }
          { logGroupName := g, logStreamName := s,
            logEvents := q.take (chooseK q 0),
            sequenceToken := some t }).calls =
          w.calls ++ [RemoteCall.putLogEventsCall
            { logGroupName := g, logStreamName := s,
              logEvents := q.take (chooseK q 0),
              sequenceToken := some t }] from rfl, countPut_snoc_put]
        omega
      rw [hidx]
      exact hp (j + 1) (by omega))
  rw [hretry]
  refine ⟨rfl, ?_, ?_, rfl⟩
  · simp [logPut, List.replicate_succ]
  · simp [logPut, countPut_append, countPut, isPutCall, List.replicate]

/-- Witness for C3 (amended): the always-failing oracle `clientBoom`. -/
theorem upload_retry_exhaustion_witness :
    (upload clientBoom "g" "s" [some { message := [97], timestamp := 0 }]
      0 {} 5 wCached).2.1 = [some { name := "Boom", errMessage := "boom" }] ∧
    (upload clientBoom "g" "s" [some { message := [97], timestamp := 0 }]
      0 {} 5 wCached).1.calls = wCached.calls ++ List.replicate 5
      (RemoteCall.putLogEventsCall
        { logGroupName := "g", logStreamName := "s",
          logEvents := List.take
            (chooseK [some { message := [97], timestamp := 0 }] 0)
            [some { message := [97], timestamp := 0 }],
          sequenceToken := some "tok" }) ∧
    countPut (upload clientBoom "g" "s" [some { message := [97], timestamp := 0 }]
      0 {} 5 wCached).1.calls = countPut wCached.calls + 5 ∧
    (upload clientBoom "g" "s" [some { message := [97], timestamp := 0 }]
      0 {} 5 wCached).2.2 =
      List.drop (chooseK [some { message := [97], timestamp := 0 }] 0)
        [some { message := [97], timestamp := 0 }] := by
  have h := upload_retry_exhaustion clientBoom "g" "s"
    [some { message := [97], timestamp := 0 }] 0 {} 5 wCached "tok"
    (fun _ => { name := "Boom", errMessage := "boom" })
    (by decide) (by simp) (by decide) (by decide)
    (by
      intro ev hev
      simp only [List.mem_cons, List.not_mem_nil, or_false] at hev
      subst hev
      simp [evCost, utf8Len, utf16UnitUtf8Size, MAX_EVENT_MSG_SIZE_BYTES,
        BASE_EVENT_SIZE_BYTES])
    (fun j _ => rfl) (by decide) (by decide)
  exact ⟨h.1, h.2.1, h.2.2.1, h.2.2.2⟩

theorem countPut_single_put (p : Payload) :
    countPut [RemoteCall.putLogEventsCall p] = 1 := rfl

/-- Behaviour of `submitWithAnotherToken` given the outcome of its internal
`getToken` on the token-nulled store: one resubmission of the same payload
with `token || undefined`, whose outcome is reported. -/
theorem submitWithAnotherToken_spec (c : AwsClient) (g s : String)
    (payload : Payload) (d : Int) (o : CWOptions) (fuel : Nat)
    (w w1 : CWState) (tr : Except JsError (Option String))
    (hget : getToken c g s d o fuel
      { w with nextToken :=
          assocSet w.nextToken (previousKeyMapKey g s) none } = (w1, tr)) :
    submitWithAnotherToken c g s payload d o fuel w =
      ({ logPut w1 { payload with sequenceToken := jsOr (cbToken tr) } with
          postingEvents := postingDel w1.postingEvents s },
       cbOut (respPut c w1
         { payload with sequenceToken := jsOr (cbToken tr) })) := by
  unfold submitWithAnotherToken
  dsimp only
  rw [hget]
  dsimp only
  cases tr with
  | ok tk =>
    dsimp only [cbToken]
    cases hp2 : respPut c w1 { payload with sequenceToken := jsOr tk } with
    | ok d2 => simp [cbOut, logPut]
    | error e2 => simp [cbOut, logPut]
  | error etk =>
    dsimp only [cbToken]
    cases hp2 : respPut c w1 { payload with sequenceToken := jsOr none } with
    | ok d2 => simp [cbOut, logPut]
    | error e2 => simp [cbOut, logPut]

/-- C4: when the first append fails with a stale-token or
destination-not-found classification, `upload` nulls the cached token for
the key, re-acquires a token via `getToken` on that cleared store, and
resubmits the same batch exactly once with the re-acquired token: in total
exactly two append submissions happen, the store ends holding the cleared
(`null`) entry, and the resubmission's outcome is the call's outcome. -/
theorem upload_stale_token_refresh (c : AwsClient) (g s : String)
    (q : List (Option LogEvent)) (d : Int) (o : CWOptions) (fuel : Nat)
    (w w1 : CWState) (t : String) (e1 : JsError)
    (tr : Except JsError (Option String))
    (hpost : postingMem w.postingEvents s = false) (hq : q ≠ [])
    (hcache : assocGet w.nextToken (previousKeyMapKey g s) = some (some t))
    (ht : t ≠ "")
    (hsize : ∀ ev ∈ q, evCost ev ≤ MAX_EVENT_MSG_SIZE_BYTES)
    (hp0 : c.putLogEvents (countPut w.calls)
      { logGroupName := g, logStreamName := s,
        logEvents := q.take (chooseK q 0), sequenceToken := some t } =
      Except.error e1)
    (hcl : e1.name = "InvalidSequenceTokenException" ∨
      e1.name = "ResourceNotFoundException")
    (hget : getToken c g s d o fuel
      { postingEvents := postingSet w.postingEvents s,
        nextToken := assocSet w.nextToken (previousKeyMapKey g s) none,
        calls := w.calls ++ [RemoteCall.putLogEventsCall
          { logGroupName := g, logStreamName := s,
            logEvents := q.take (chooseK q 0), sequenceToken := some t }],
        consoleErrors := w.consoleErrors } = (w1, tr)) :
    ∃ mid,
      countPut mid = 0 ∧
      (upload c g s q d o fuel w).1.calls =
        w.calls ++ RemoteCall.putLogEventsCall
          { logGroupName := g, logStreamName := s,
            logEvents := q.take (chooseK q 0), sequenceToken := some t } ::
          (mid ++ [RemoteCall.putLogEventsCall
            { logGroupName := g, logStreamName := s,
              logEvents := q.take (chooseK q 0),
              sequenceToken := jsOr (cbToken tr) }]) ∧
      countPut (upload c g s q d o fuel w).1.calls = countPut w.calls + 2 ∧
      assocGet (upload c g s q d o fuel w).1.nextToken
        (previousKeyMapKey g s) = some none ∧
      (upload c g s q d o fuel w).2.1 =
        [cbOut (respPut c w1
          { logGroupName := g, logStreamName := s,
            logEvents := q.take (chooseK q 0),
            sequenceToken := jsOr (cbToken tr) })] ∧
      (upload c g s q d o fuel w).2.2 = q.drop (chooseK q 0) := by
  have hext := getToken_extends c g s d o fuel
    { postingEvents := postingSet w.postingEvents s,
      nextToken := assocSet w.nextToken (previousKeyMapKey g s) none,
      calls := w.calls ++ [RemoteCall.putLogEventsCall
        { logGroupName := g, logStreamName := s,
          logEvents := q.take (chooseK q 0), sequenceToken := some t }],
      consoleErrors := w.consoleErrors }
  rw [hget] at hext
  obtain ⟨hpostEq, htokEq, mid, hcallsEq, hmid⟩ := hext
  rw [upload_cacheHit_unfold c g s q d o fuel w t hpost hq hcache ht hsize]
  dsimp only
  have hput0 : respPut c { w with postingEvents := postingSet w.postingEvents s }
      { logGroupName := g, logStreamName := s,
        logEvents := q.take (chooseK q 0), sequenceToken := some t } =
      Except.error e1 := by
    simpa [respPut] using hp0
  rw [hput0]
  dsimp only
  rw [if_pos (by rcases hcl with h | h <;> simp [h])]
  rw [submitWithAnotherToken_spec c g s
    { logGroupName := g, logStreamName := s,
      logEvents := q.take (chooseK q 0), sequenceToken := some t } d o fuel
    (logPut { w with postingEvents := postingSet w.postingEvents s }
      { logGroupName := g, logStreamName := s,
        logEvents := q.take (chooseK q 0), sequenceToken := some t })
    w1 tr hget]
  refine ⟨mid, hmid, ?_, ?_, ?_, rfl, rfl⟩
  · simp only [logPut] at hcallsEq ⊢
    simp [hcallsEq]
  · simp only [logPut]
    rw [countPut_snoc_put, hcallsEq]
    simp only [countPut_append, hmid, countPut_single_put]
  · simp only [logPut] at htokEq ⊢
    simp [htokEq, assocGet_assocSet_same]

/-- C10: if re-acquiring a token inside `submitWithAnotherToken` fails, the
error is discarded: the same batch is still resubmitted once with the
sequence token absent, the store is left as `getToken` left it, and the
call's outcome is exactly the resubmission's outcome — the token-acquisition
error is never surfaced. -/
theorem submitWithAnotherToken_discards_token_error (c : AwsClient)
    (g s : String) (payload : Payload) (d : Int) (o : CWOptions) (fuel : Nat)
    (w w1 : CWState) (eTok : JsError)
    (hget : getToken c g s d o fuel
      { w with nextToken :=
          assocSet w.nextToken (previousKeyMapKey g s) none } =
      (w1, Except.error eTok)) :
    (submitWithAnotherToken c g s payload d o fuel w).2 =
      cbOut (respPut c w1 { payload with sequenceToken := none }) ∧
    (submitWithAnotherToken c g s payload d o fuel w).1.calls =
      w1.calls ++ [RemoteCall.putLogEventsCall
        { payload with sequenceToken := none }] ∧
    (submitWithAnotherToken c g s payload d o fuel w).1.nextToken =
      w1.nextToken := by
  have h := submitWithAnotherToken_spec c g s payload d o fuel w w1
    (Except.error eTok) hget
  rw [h]
  refine ⟨?_, ?_, ?_⟩ <;> simp [cbToken, jsOr, logPut, cbOut]

/-- Equality of `Except` responses is decidable (used to evaluate the model
at concrete oracles). -/
instance {e a : Type} [DecidableEq e] [DecidableEq a] :
    DecidableEq (Except e a) := fun x y =>
  match x, y with
  | Except.ok u, Except.ok v =>
    if h : u = v then Decidable.isTrue (by rw [h])
    else Decidable.isFalse (by intro hc; cases hc; exact h rfl)
  | Except.error u, Except.error v =>
    if h : u = v then Decidable.isTrue (by rw [h])
    else Decidable.isFalse (by intro hc; cases hc; exact h rfl)
  | Except.ok _, Except.error _ => Decidable.isFalse (by intro hc; cases hc)
  | Except.error _, Except.ok _ => Decidable.isFalse (by intro hc; cases hc)

/-- A one-byte test event. -/
def evSmall : Option LogEvent := some { message := [97], timestamp := 0 }

/-- Concrete oracle whose first append is rejected as a stale token and
whose second append succeeds. -/
def errStale : JsError :=
  { name := "InvalidSequenceTokenException", errMessage := "stale" }

def clientStale : AwsClient :=
  { clientOk with putLogEvents := fun i _ =>
      if i = 0 then Except.error errStale else Except.ok (some "T9") }

/-- The payload of `clientStale`'s first, rejected append. -/
def pStale : Payload :=
  { logGroupName := "g", logStreamName := "s", logEvents := [evSmall],
    sequenceToken := some "tok" }

/-- The state `clientStale`'s token refresh reaches: guard marked, store
nulled for the key, the failed append logged, then the two describes of the
re-acquisition. -/
def w1Stale : CWState :=
  { postingEvents := ["s"],
    nextToken := [("g:s", none)],
    calls := [RemoteCall.putLogEventsCall pStale,
      RemoteCall.describeLogStreamsCall { logGroupName := "g" },
      RemoteCall.describeLogStreamsCall
        { logGroupName := "g", streamNameFilter := some "s" }],
    consoleErrors := [] }

/-- Witness for C4: `clientStale` with a cached token. -/
theorem upload_stale_token_refresh_witness :
    ∃ mid,
      countPut mid = 0 ∧
      (upload clientStale "g" "s" [evSmall] 0 {} 5 wCached).1.calls =
        wCached.calls ++ RemoteCall.putLogEventsCall
          { logGroupName := "g", logStreamName := "s",
            logEvents := List.take (chooseK [evSmall] 0) [evSmall],
            sequenceToken := some "tok" } ::
          (mid ++ [RemoteCall.putLogEventsCall
            { logGroupName := "g", logStreamName := "s",
              logEvents := List.take (chooseK [evSmall] 0) [evSmall],
              sequenceToken := jsOr (cbToken (Except.ok (some "T0"))) }]) ∧
      countPut (upload clientStale "g" "s" [evSmall] 0 {} 5 wCached).1.calls =
        countPut wCached.calls + 2 ∧
      assocGet (upload clientStale "g" "s" [evSmall] 0 {} 5 wCached).1.nextToken
        (previousKeyMapKey "g" "s") = some none ∧
      (upload clientStale "g" "s" [evSmall] 0 {} 5 wCached).2.1 =
        [cbOut (respPut clientStale w1Stale
          { logGroupName := "g", logStreamName := "s",
            logEvents := List.take (chooseK [evSmall] 0) [evSmall],
            sequenceToken := jsOr (cbToken (Except.ok (some "T0"))) })] ∧
      (upload clientStale "g" "s" [evSmall] 0 {} 5 wCached).2.2 =
        List.drop (chooseK [evSmall] 0) [evSmall] :=
  upload_stale_token_refresh clientStale "g" "s" [evSmall] 0 {} 5 wCached
    w1Stale "tok" errStale (Except.ok (some "T0"))
    (by decide) (by simp) (by decide) (by decide)
    (by
      intro ev hev
      simp only [List.mem_cons, List.not_mem_nil, or_false] at hev
      subst hev
      simp [evSmall, evCost, utf8Len, utf16UnitUtf8Size,
        MAX_EVENT_MSG_SIZE_BYTES, BASE_EVENT_SIZE_BYTES])
    (by decide) (Or.inl rfl) (by decide)

/-- Concrete oracle whose describes always fail. -/
def clientDescFail : AwsClient :=
  { clientOk with describeLogStreams := fun _ _ =>
      Except.error { name := "DescribeBoom", errMessage := "down" } }

/-- The state the failed token re-acquisition of `clientDescFail` ends in. -/
def w1DescFail : CWState :=
  { postingEvents := [], nextToken := [("g:s", none)],
    calls := [RemoteCall.describeLogStreamsCall { logGroupName := "g" }],
    consoleErrors := [] }

/-- A payload carried into the resubmission path. -/
def pW : Payload :=
  { logGroupName := "g", logStreamName := "s", logEvents := [evSmall],
    sequenceToken := some "old" }

/-- Witness for C10: describes fail, so the token re-acquisition errors; the
resubmission still happens with the token field absent. -/
theorem submitWithAnotherToken_discards_token_error_witness :
    (submitWithAnotherToken clientDescFail "g" "s" pW 0 {} 5 wEmpty).2 =
      cbOut (respPut clientDescFail w1DescFail
        { pW with sequenceToken := none }) ∧
    (submitWithAnotherToken clientDescFail "g" "s" pW 0 {} 5 wEmpty).1.calls =
      w1DescFail.calls ++ [RemoteCall.putLogEventsCall
        { pW with sequenceToken := none }] ∧
    (submitWithAnotherToken clientDescFail "g" "s" pW 0 {} 5 wEmpty).1.nextToken =
      w1DescFail.nextToken :=
  submitWithAnotherToken_discards_token_error clientDescFail "g" "s" pW 0 {}
    5 wEmpty w1DescFail { name := "DescribeBoom", errMessage := "down" }
    (by decide)

/-- The in-place truncation the carving loop applies to an oversized event:
the message is replaced by its first `MAX_EVENT_MSG_SIZE_BYTES` UTF-16
units. -/
def truncatedEvent (e : LogEvent) : LogEvent :=
  { e with message := e.message.take MAX_EVENT_MSG_SIZE_BYTES }

/-- The 'Message Truncated' error the carving loop attaches to the truncated
event. -/
def truncErrFor (e : LogEvent) : JsError :=
  { name := "Error", errMessage := truncationMessage,
    logEvent := some (truncatedEvent e) }

/-- `upload` on a cache-hit state whose first queued event is oversized and
whose remaining events respect the cap, reduced past the guard, token
acquisition and the carving loop: the head's message is cut in place to the
first `MAX_EVENT_MSG_SIZE_BYTES` UTF-16 units, the truncation error is
emitted through the callback, and the upload continues — the truncated head
(costed at the cap) plus the greedy prefix of the rest is still submitted. -/
theorem upload_truncHead_unfold (c : AwsClient) (g s : String) (e : LogEvent)
    (rest : List (Option LogEvent)) (d : Int) (o : CWOptions) (fuel : Nat)
    (w : CWState) (t : String)
    (hpost : postingMem w.postingEvents s = false)
    (hcache : assocGet w.nextToken (previousKeyMapKey g s) = some (some t))
    (ht : t ≠ "")
    (hbig : MAX_EVENT_MSG_SIZE_BYTES < utf8Len e.message + BASE_EVENT_SIZE_BYTES)
    (hrest : ∀ ev ∈ rest, evCost ev ≤ MAX_EVENT_MSG_SIZE_BYTES) :
    upload c g s (some e :: rest) d o fuel w =
      (let e2 : LogEvent := truncatedEvent e
       let k := chooseK rest MAX_EVENT_MSG_SIZE_BYTES
       let truncErr : JsError := truncErrFor e
       let payload : Payload :=
         { logGroupName := g, logStreamName := s,
           logEvents := some e2 :: rest.take k, sequenceToken := some t }
       let w2 : CWState :=
         { w with postingEvents := postingSet w.postingEvents s }
       let w3 := logPut w2 payload
       match respPut c w2 payload with
       | Except.error err =>
         if err.name = "InvalidSequenceTokenException" ||
             err.name = "ResourceNotFoundException" then
           let sub := submitWithAnotherToken c g s payload d o fuel w3
           ({ sub.1 with postingEvents := postingDel sub.1.postingEvents s },
            [some truncErr, sub.2], rest.drop k)
         else
           let rs := retrySubmit c payload 3 w3
           ({ rs.1 with postingEvents := postingDel rs.1.postingEvents s },
            [some truncErr, rs.2], rest.drop k)
       | Except.ok data =>
         let w4 : CWState :=
           match data with
           | some t2 =>
             if t2 = "" then w3
             else
               let key := previousKeyMapKey g s
               { w3 with nextToken := assocSet w3.nextToken key (some t2) }
           | none => w3
         ({ w4 with postingEvents := postingDel w4.postingEvents s },
          [some truncErr, none], rest.drop k)) := by
  have hcarve : carve (some e :: rest) 0 =
      (chooseK rest MAX_EVENT_MSG_SIZE_BYTES + 1,
       some { e with message := e.message.take MAX_EVENT_MSG_SIZE_BYTES } :: rest,
       [{ name := "Error", errMessage := truncationMessage,
          logEvent := some
            { e with message := e.message.take MAX_EVENT_MSG_SIZE_BYTES } }]) := by
    have hc1 : evCost (some e) > MAX_EVENT_MSG_SIZE_BYTES := by
      simpa [evCost] using hbig
    have hc2 : ¬ 0 + MAX_EVENT_MSG_SIZE_BYTES > MAX_BATCH_SIZE_BYTES := by
      norm_num [MAX_EVENT_MSG_SIZE_BYTES, MAX_BATCH_SIZE_BYTES]
    unfold carve
    dsimp only
    rw [if_pos hc1]
    dsimp only
    rw [if_neg hc2]
    rw [carve_no_oversize rest (0 + MAX_EVENT_MSG_SIZE_BYTES) hrest]
    simp
  have hlen : ¬ (postingMem w.postingEvents s ||
      decide ((some e :: rest).length ≤ 0)) = true := by
    simp [hpost]
  unfold upload
  rw [if_neg hlen]
  unfold safeUpload
  have hcache2 : assocGet
      ({ w with postingEvents := postingSet w.postingEvents s } : CWState).nextToken
      (previousKeyMapKey g s) = some (some t) := hcache
  rw [getToken_cacheHit c g s d o fuel _ t hcache2]
  dsimp only
  rw [hcarve]
  dsimp only
  have hset : postingSet (postingDel (postingSet w.postingEvents s) s) s =
      postingSet w.postingEvents s := by
    rw [postingDel_postingSet, postingDel_of_not_mem _ _ hpost]
  rw [hset]
  have hjs : jsOr (some t) = some t := by simp [jsOr, ht]
  rw [hjs]
  simp only [truncatedEvent, truncErrFor, List.take_succ_cons,
    List.drop_succ_cons, List.map_cons, List.map_nil, List.cons_append,
    List.nil_append]


/-- C2 (amended): when `upload` encounters a first event whose encoded size
plus the 26-byte overhead exceeds the single-event cap, the event's message
is truncated in place to its first 256,000 UTF-16 units — so the stored
length is `min(cap, original length)`, which can be below the cap — and the
'Message Truncated' error naming the truncated event is delivered through
the callback; but the call does not abort: the truncated event (costed at
the cap) and the following events are still carved into the batch, the
remote append is still attempted, and the callback is invoked a second time
with the append path's outcome. -/
theorem upload_truncation_behavior (c : AwsClient) (g s : String)
    (e : LogEvent) (rest : List (Option LogEvent)) (d : Int) (o : CWOptions)
    (fuel : Nat) (w : CWState) (t : String)
    (hpost : postingMem w.postingEvents s = false)
    (hcache : assocGet w.nextToken (previousKeyMapKey g s) = some (some t))
    (ht : t ≠ "")
    (hbig : MAX_EVENT_MSG_SIZE_BYTES < utf8Len e.message + BASE_EVENT_SIZE_BYTES)
    (hrest : ∀ ev ∈ rest, evCost ev ≤ MAX_EVENT_MSG_SIZE_BYTES) :
    ∃ out restCalls,
      (upload c g s (some e :: rest) d o fuel w).2.1 =
        some (truncErrFor e) :: [out] ∧
      (upload c g s (some e :: rest) d o fuel w).1.calls =
        w.calls ++ RemoteCall.putLogEventsCall
          { logGroupName := g, logStreamName := s,
            logEvents := some (truncatedEvent e) ::
              rest.take (chooseK rest MAX_EVENT_MSG_SIZE_BYTES),
            sequenceToken := some t } :: restCalls ∧
      (truncatedEvent e).message.length =
        min MAX_EVENT_MSG_SIZE_BYTES e.message.length ∧
      (upload c g s (some e :: rest) d o fuel w).2.2 =
        rest.drop (chooseK rest MAX_EVENT_MSG_SIZE_BYTES) := by
  have hmin : (truncatedEvent e).message.length =
      min MAX_EVENT_MSG_SIZE_BYTES e.message.length := by
    simp [truncatedEvent, List.length_take]
  rw [upload_truncHead_unfold c g s e rest d o fuel w t hpost hcache ht hbig
    hrest]
  dsimp only
  cases hp : respPut c { w with postingEvents := postingSet w.postingEvents s }
      { logGroupName := g, logStreamName := s,
        logEvents := some (truncatedEvent e) ::
          rest.take (chooseK rest MAX_EVENT_MSG_SIZE_BYTES),
        sequenceToken := some t } with
  | error err =>
    dsimp only
    by_cases hcl : (err.name = "InvalidSequenceTokenException" ||
        err.name = "ResourceNotFoundException") = true
    · rw [if_pos hcl]
      obtain ⟨new, hc⟩ := submitWithAnotherToken_extendsCalls c g s
        { logGroupName := g, logStreamName := s,
          logEvents := some (truncatedEvent e) ::
            rest.take (chooseK rest MAX_EVENT_MSG_SIZE_BYTES),
          sequenceToken := some t } d o fuel
        (logPut { w with postingEvents := postingSet w.postingEvents s }
          { logGroupName := g, logStreamName := s,
            logEvents := some (truncatedEvent e) ::
              rest.take (chooseK rest MAX_EVENT_MSG_SIZE_BYTES),
            sequenceToken := some t })
      simp only [logPut] at hc
      refine ⟨_, new, rfl, ?_, hmin, rfl⟩
      simp only [logPut]
      simp [hc]
    · rw [if_neg hcl]
      obtain ⟨new, hc⟩ := retrySubmit_extendsCalls c
        { logGroupName := g, logStreamName := s,
          logEvents := some (truncatedEvent e) ::
            rest.take (chooseK rest MAX_EVENT_MSG_SIZE_BYTES),
          sequenceToken := some t } 3
        (logPut { w with postingEvents := postingSet w.postingEvents s }
          { logGroupName := g, logStreamName := s,
            logEvents := some (truncatedEvent e) ::
              rest.take (chooseK rest MAX_EVENT_MSG_SIZE_BYTES),
            sequenceToken := some t })
      simp only [logPut] at hc
      refine ⟨_, new, rfl, ?_, hmin, rfl⟩
      simp only [logPut]
      simp [hc]
  | ok data =>
    dsimp only
    cases data with
    | none =>
      dsimp only
      refine ⟨_, [], rfl, ?_, hmin, rfl⟩
      simp [logPut]
    | some t2 =>
      dsimp only
      by_cases ht2 : t2 = ""
      · rw [if_pos ht2]
        refine ⟨_, [], rfl, ?_, hmin, rfl⟩
        simp [logPut]
      · rw [if_neg ht2]
        refine ⟨_, [], rfl, ?_, hmin, rfl⟩
        simp [logPut]

/-- An event whose 255,980-byte ASCII message exceeds the cap only together
with the 26-byte overhead (255,980 + 26 = 256,006 > 256,000). -/
def bigE : LogEvent := { message := List.replicate 255980 120, timestamp := 0 }

/-- C2 counterexample: for the queue `[bigE, evSmall]` (first event costed
at 256,006 bytes, above the cap) with a cached token, `upload` does trigger
the truncation branch — yet it still submits a remote append whose batch
contains the (unchanged) first event AND the following event, and the
stored message length afterwards is 255,980, not the 256,000 cap; the
callback fires twice (truncation error, then success). -/
theorem upload_truncation_counterexample :
    MAX_EVENT_MSG_SIZE_BYTES < utf8Len bigE.message + BASE_EVENT_SIZE_BYTES ∧
    (upload clientOk "g" "s" [some bigE, evSmall] 0 {} 5 wCached).1.calls =
      [RemoteCall.putLogEventsCall
        { logGroupName := "g", logStreamName := "s",
          logEvents := [some bigE, evSmall], sequenceToken := some "tok" }] ∧
    (upload clientOk "g" "s" [some bigE, evSmall] 0 {} 5 wCached).2.1 =
      [some (truncErrFor bigE), none] ∧
    (truncatedEvent bigE).message.length = 255980 ∧
    255980 ≠ MAX_EVENT_MSG_SIZE_BYTES := by
  have hlen : utf8Len (List.replicate 255980 120) = 255980 :=
    utf8Len_replicate_ascii 120 (by omega) 255980
  have hm : bigE.message = List.replicate 255980 120 := rfl
  have hbig : MAX_EVENT_MSG_SIZE_BYTES <
      utf8Len bigE.message + BASE_EVENT_SIZE_BYTES := by
    rw [hm, hlen]
    decide
  have htake : bigE.message.take MAX_EVENT_MSG_SIZE_BYTES = bigE.message := by
    rw [hm, List.take_replicate]
    congr 1
  have he2 : truncatedEvent bigE = bigE := by
    unfold truncatedEvent
    rw [htake]
  have hrest : ∀ ev ∈ [evSmall], evCost ev ≤ MAX_EVENT_MSG_SIZE_BYTES := by
    intro ev hev
    simp only [List.mem_cons, List.not_mem_nil, or_false] at hev
    subst hev
    simp [evSmall, evCost, utf8Len, utf16UnitUtf8Size,
      MAX_EVENT_MSG_SIZE_BYTES, BASE_EVENT_SIZE_BYTES]
  have hk : chooseK [evSmall] MAX_EVENT_MSG_SIZE_BYTES = 1 := by decide
  refine ⟨hbig, ?_, ?_, ?_, by decide⟩
  · rw [upload_truncHead_unfold clientOk "g" "s" bigE [evSmall] 0 {} 5
      wCached "tok" (by decide) (by decide) (by decide) hbig hrest]
    dsimp only
    rw [hk]
    have hresp : ∀ (wx : CWState) (px : Payload),
        respPut clientOk wx px = Except.ok (some "T2") := fun _ _ => rfl
    rw [hresp]
    dsimp only
    rw [if_neg (by decide : ¬ ("T2" : String) = "")]
    rw [he2]
    simp only [logPut, wCached]
    rfl
  · rw [upload_truncHead_unfold clientOk "g" "s" bigE [evSmall] 0 {} 5
      wCached "tok" (by decide) (by decide) (by decide) hbig hrest]
    dsimp only
    rw [hk]
    have hresp : ∀ (wx : CWState) (px : Payload),
        respPut clientOk wx px = Except.ok (some "T2") := fun _ _ => rfl
    rw [hresp]
  · rw [he2, hm, List.length_replicate]

/-- An event whose 300,000-unit ASCII message is far above the cap. -/
def bigE300 : LogEvent :=
  { message := List.replicate 300000 120, timestamp := 0 }

/-- Witness for C2 (amended): a single far-oversized event. -/
theorem upload_truncation_behavior_witness :
    ∃ out restCalls,
      (upload clientOk "g" "s" [some bigE300] 0 {} 5 wCached).2.1 =
        some (truncErrFor bigE300) :: [out] ∧
      (upload clientOk "g" "s" [some bigE300] 0 {} 5 wCached).1.calls =
        wCached.calls ++ RemoteCall.putLogEventsCall
          { logGroupName := "g", logStreamName := "s",
            logEvents := some (truncatedEvent bigE300) ::
              List.take (chooseK ([] : List (Option LogEvent))
                MAX_EVENT_MSG_SIZE_BYTES) ([] : List (Option LogEvent)),
            sequenceToken := some "tok" } :: restCalls ∧
      (truncatedEvent bigE300).message.length =
        min MAX_EVENT_MSG_SIZE_BYTES bigE300.message.length ∧
      (upload clientOk "g" "s" [some bigE300] 0 {} 5 wCached).2.2 =
        List.drop (chooseK ([] : List (Option LogEvent))
          MAX_EVENT_MSG_SIZE_BYTES) ([] : List (Option LogEvent)) :=
  upload_truncation_behavior clientOk "g" "s" bigE300 [] 0 {} 5 wCached "tok"
    (by decide) (by decide) (by decide)
    (by
      have hlen : utf8Len (List.replicate 300000 120) = 300000 :=
        utf8Len_replicate_ascii 120 (by omega) 300000
      have hm : bigE300.message = List.replicate 300000 120 := rfl
      rw [hm, hlen]
      decide)
    (by intro ev hev; simp at hev)
